import Mathlib

/-!
Verification development for the oas repository: an OpenAPI 3.x document
model with a dual-format (JSON/YAML) codec routed through a generic
string-keyed map of dynamically typed values.

Shallow embedding conventions, shared by every entity below:

* A dynamic Go value (interface with underlying string, int, bool, nil,
  ordered sequence, string-keyed map, or untyped-keyed map) is the
  inductive type GoVal.  YAML 1.1 floats are never exercised by the
  properties under study and are not modeled.
* Go maps are represented as association lists in insertion order; the
  Go runtime map iteration order is unspecified, and no property below
  depends on entry order, only on lookup (first match) and on key sets.
* In the source both the JSON and the YAML byte codecs of every entity
  delegate to the same pair MarshalYAML/UnmarshalYAML through the
  generic map (MarshalJSON serializes the MarshalYAML output;
  UnmarshalJSON re-serializes the parsed JSON through YAML bytes into
  UnmarshalYAML).  The byte layers transport the generic tree
  faithfully, so both formats are embedded as one pair of functions per
  entity, marshalYAML : T -> GoVal and unmarshalYAML : GoVal -> Except
  String T, exactly mirroring the source methods of the same name.
* Go nil pointers are Option.none; Go nil slices and nil maps are
  modeled as the empty list except where the source distinguishes nil
  from empty (Operation.Callbacks and Operation.Servers are guarded by
  a nil check rather than a length check, so they are Option-typed).
* The recursive entity families (Schema; Header/MediaType/Encoding;
  Operation/PathItem/Callback) decode with an explicit fuel parameter;
  the recursion of the source is bounded by the depth of the input
  document, and the public entry points pass goSize input + 1 fuel,
  which is always sufficient because every recursive call happens on a
  strict subvalue.
-/

set_option maxHeartbeats 4000000

namespace Oas

/-- A dynamically typed value as produced by the Go yaml generic decode:
scalars, nil, ordered sequences, string-keyed maps and untyped-keyed
maps. -/
inductive GoVal where
  | str (s : String)
  | int (n : Int)
  | bool (b : Bool)
  | null
  | arr (xs : List GoVal)
  | smap (es : List (String × GoVal))
  | imap (es : List (GoVal × GoVal))

/-- Entries of a string-keyed generic map, in insertion order. -/
abbrev Entries := List (String × GoVal)

/-- ASCII lowercase of one character (strings.ToLower restricted to the
ASCII range; extension keys are ASCII in every scenario considered). -/
def lowerChar (c : Char) : Char :=
  if 65 ≤ c.toNat ∧ c.toNat ≤ 90 then Char.ofNat (c.toNat + 32) else c

/-- The extension-key filter of the source:
strings.HasPrefix(strings.ToLower(k), "x-"). -/
def isExt (k : String) : Bool :=
  match k.data.map lowerChar with
  | 'x' :: '-' :: _ => true
  | _ => false

/-- First-match lookup in a generic map (Go map indexing). -/
def lookupE (es : Entries) (k : String) : Option GoVal :=
  match es with
  | [] => none
  | p :: ps => if p.1 = k then some p.2 else lookupE ps k

/-- The key list of a generic map. -/
def keysE (es : Entries) : List String :=
  es.map Prod.fst

/-- Go map assignment obj[k] = v: replace the binding if the key is
present, append it otherwise. -/
def setE (es : Entries) (k : String) (v : GoVal) : Entries :=
  match es with
  | [] => [(k, v)]
  | p :: ps => if p.1 = k then (k, v) :: ps else p :: setE ps k v

/-- The default Go string rendering fmt.Sprint of a dynamic value.  The
scalar renderings are exact; for composites the Go runtime sorts map
keys while this model keeps entry order, a difference no studied
property touches (the coercions under study only meet scalars). -/
def goFmt : GoVal → String
  | .str s => s
  | .int n => toString n
  | .bool b => if b then "true" else "false"
  | .null => "<nil>"
  | .arr xs => "[" ++ " ".intercalate (goFmtList xs) ++ "]"
  | .smap es => "map[" ++ " ".intercalate (goFmtSEntries es) ++ "]"
  | .imap es => "map[" ++ " ".intercalate (goFmtIEntries es) ++ "]"
where
  /-- Renders each element of a sequence. -/
  goFmtList : List GoVal → List String
    | [] => []
    | x :: xs => goFmt x :: goFmtList xs
  /-- Renders each entry of a string-keyed map. -/
  goFmtSEntries : List (String × GoVal) → List String
    | [] => []
    | (k, v) :: ps => (k ++ ":" ++ goFmt v) :: goFmtSEntries ps
  /-- Renders each entry of an untyped-keyed map. -/
  goFmtIEntries : List (GoVal × GoVal) → List String
    | [] => []
    | (k, v) :: ps => (goFmt k ++ ":" ++ goFmt v) :: goFmtIEntries ps

mutual

/-- The value normalizer of src/extensions.go: sequences are normalized
elementwise, untyped-keyed maps become string-keyed maps with
stringified keys, and everything else (scalars and already string-keyed
maps included) passes through unchanged. -/
def cleanupMapValue : GoVal → GoVal
  | .arr xs => .arr (cleanupInterfaceArray xs)
  | .imap es => .smap (cleanupInterfaceMap es)
  | v => v

/-- Normalizes every element of a sequence, preserving order. -/
def cleanupInterfaceArray : List GoVal → List GoVal
  | [] => []
  | x :: xs => cleanupMapValue x :: cleanupInterfaceArray xs

/-- Stringifies every key via the default string conversion and
normalizes every value.  Go iterates the source map in unspecified
order and key collisions after stringification keep one winner; entries
are kept here in document order, a difference outside every studied
property. -/
def cleanupInterfaceMap : List (GoVal × GoVal) → Entries
  | [] => []
  | p :: ps => (goFmt p.1, cleanupMapValue p.2) :: cleanupInterfaceMap ps

end

mutual

/-- Computable size of a generic value, used to seed the fuel of the
recursive decoders; any recursive call happens on a value found inside
its parent node, whose size is strictly smaller. -/
def goSize : GoVal → Nat
  | .arr xs => 1 + goSizeList xs
  | .smap es => 1 + goSizeS es
  | .imap es => 1 + goSizeI es
  | _ => 1

/-- Size of sequence elements. -/
def goSizeList : List GoVal → Nat
  | [] => 0
  | x :: xs => 1 + goSize x + goSizeList xs

/-- Size of string-keyed entries. -/
def goSizeS : List (String × GoVal) → Nat
  | [] => 0
  | p :: ps => 1 + goSize p.2 + goSizeS ps

/-- Size of untyped-keyed entries. -/
def goSizeI : List (GoVal × GoVal) → Nat
  | [] => 0
  | p :: ps => 1 + goSize p.1 + goSize p.2 + goSizeI ps

end

/-- The unmarshal(&obj) step shared by every decoder: the node must be a
map (an untyped-keyed map qualifies when all its keys are strings,
which is what the yaml re-serialization of a nested map accepts into
map[string]interface, and the null node yields the zero map). -/
def GoVal.toEntries : GoVal → Except String Entries
  | .smap es => .ok es
  | .imap es => es.mapM (fun p =>
      match p.1 with
      | .str s => .ok (s, p.2)
      | _ => .error "cannot unmarshal non-string key into string")
  | .null => .ok []
  | _ => .error "cannot unmarshal value into map"

/-- Decoding a node into a Go slice: only sequences qualify, the null
node yields the nil slice. -/
def GoVal.toList : GoVal → Except String (List GoVal)
  | .arr xs => .ok xs
  | .null => .ok []
  | _ => .error "cannot unmarshal value into slice"

/-- Type assertion value.(string). -/
def GoVal.asStr : GoVal → Option String
  | .str s => some s
  | _ => none

/-- Type assertion value.(bool). -/
def GoVal.asBool : GoVal → Option Bool
  | .bool b => some b
  | _ => none

/-- The scalar string field pattern of every decoder: if the key is
present and the value is a string, use it, otherwise leave the zero
value. -/
def strField (es : Entries) (k : String) : String :=
  ((lookupE es k).bind GoVal.asStr).getD ""

/-- The scalar bool field pattern: wrong shapes leave false. -/
def boolField (es : Entries) (k : String) : Bool :=
  ((lookupE es k).bind GoVal.asBool).getD false

/-- The untyped field pattern (numeric constraints, raw examples): the
present value is stored as is; a null value is the nil interface and
indistinguishable from absence. -/
def rawField (es : Entries) (k : String) : Option GoVal :=
  match lookupE es k with
  | some .null => none
  | x => x

/-- The normalized free-form field pattern: like rawField but the value
passes through cleanupMapValue (Schema.Example, MediaType.Example,
Example.Value). -/
def cleanField (es : Entries) (k : String) : Option GoVal :=
  (rawField es k).map cleanupMapValue

/-- The ordered-string-array coercion: if the key holds a sequence,
every element is coerced with the default string conversion, otherwise
the zero value stays (Operation.Tags, Schema.Required,
ServerVariable.Enum). -/
def strCoerceField (es : Entries) (k : String) : List String :=
  match lookupE es k with
  | some (.arr xs) => xs.map goFmt
  | _ => []

/-- The optional child pattern: if the key is present its value is
re-serialized into the child decoder and the result attached, else the
nil pointer stays. -/
def optField {X : Type} (es : Entries) (k : String)
    (dec : GoVal → Except String X) : Except String (Option X) :=
  match lookupE es k with
  | some v => do pure (some (← dec v))
  | none => pure none

/-- Sequentially decodes every value of a generic map through a child
decoder, keeping keys in order; the first failure aborts. -/
def decEntries {X : Type} (dec : GoVal → Except String X) :
    List (String × GoVal) → Except String (List (String × X))
  | [] => pure []
  | p :: ps => do
    let x ← dec p.2
    let rest ← decEntries dec ps
    pure ((p.1, x) :: rest)

/-- Sequentially decodes every element of a sequence through a child
decoder; the first failure aborts. -/
def decList {X : Type} (dec : GoVal → Except String X) :
    List GoVal → Except String (List X)
  | [] => pure []
  | x :: xs => do
    let b ← dec x
    let rest ← decList dec xs
    pure (b :: rest)

/-- Decoding a node into map[string]*X: each value runs through the
child decoder, keys are kept in order. -/
def decodeSMap {X : Type} (dec : GoVal → Except String X) (v : GoVal) :
    Except String (List (String × X)) := do
  decEntries dec (← v.toEntries)

/-- The optional map-of-children field pattern guarded by a nil check
(Operation.Callbacks). -/
def optMapField {X : Type} (es : Entries) (k : String)
    (dec : GoVal → Except String X) :
    Except String (Option (List (String × X))) :=
  match lookupE es k with
  | some w => do pure (some (← decodeSMap dec w))
  | none => pure none

/-- The map-of-children field pattern. -/
def mapField {X : Type} (es : Entries) (k : String)
    (dec : GoVal → Except String X) : Except String (List (String × X)) :=
  match lookupE es k with
  | some v => decodeSMap dec v
  | none => pure []

/-- The list-of-children field pattern. -/
def listField {X : Type} (es : Entries) (k : String)
    (dec : GoVal → Except String X) : Except String (List X) :=
  match lookupE es k with
  | some v => do decList dec (← v.toList)
  | none => pure []

/-- The optional list-of-children field pattern guarded by a nil check
(Operation.Servers). -/
def optListField {X : Type} (es : Entries) (k : String)
    (dec : GoVal → Except String X) : Except String (Option (List X)) :=
  match lookupE es k with
  | some w => do pure (some (← decList dec (← w.toList)))
  | none => pure none

/-- Decoding a node into map[string]string by the default yaml rules:
every value must be a string (null gives the zero string). -/
def decodeStrStrMap (v : GoVal) : Except String (List (String × String)) := do
  (← v.toEntries).mapM (fun p =>
    match p.2 with
    | .str s => .ok (p.1, s)
    | .null => .ok (p.1, "")
    | _ => .error "cannot unmarshal value into string")

/-- The Extensions collection of src/extensions.go. -/
abbrev Extensions := Entries

/-- Extensions.MarshalYAML: keep only the keys whose lowercase form
starts with x-. -/
def Extensions.marshalObj (r : Extensions) : Entries :=
  r.filter (fun p => isExt p.1)

/-- Extensions.MarshalYAML wrapped as a generic value. -/
def Extensions.marshalYAML (r : Extensions) : GoVal :=
  .smap (Extensions.marshalObj r)

/-- The extension entries of a generic map: the keys whose lowercase
form starts with x-, each value normalized. -/
def extsOf (es : Entries) : Extensions :=
  (es.filter (fun p => isExt p.1)).map (fun p => (p.1, cleanupMapValue p.2))

/-- Extensions.UnmarshalYAML: decode the whole map, keep the keys whose
lowercase form starts with x-, normalizing each kept value. -/
def Extensions.unmarshalYAML (v : GoVal) : Except String Extensions := do
  let es ← v.toEntries
  pure (extsOf es)

/-- Merging the extension bag into an entity output map last, keyed
verbatim (the final for key, val := range r.Extensions loop of every
MarshalYAML). -/
def mergeExt (obj : Entries) (ext : Extensions) : Entries :=
  ext.foldl (fun o p => setE o p.1 p.2) obj

/-- Emit a string field only when non-empty. -/
def strOpt (k : String) (s : String) : Entries :=
  if s = "" then [] else [(k, .str s)]

/-- Emit a bool field only when true. -/
def boolOpt (k : String) (b : Bool) : Entries :=
  if b then [(k, .bool b)] else []

/-- Emit an untyped field only when the interface is non-nil. -/
def rawOpt (k : String) : Option GoVal → Entries
  | some v => [(k, v)]
  | none => []

/-- Emit an optional child as its own generic form. -/
def childOpt {X : Type} (k : String) (enc : X → GoVal) : Option X → Entries
  | some x => [(k, enc x)]
  | none => []

/-- Emit a list field only when non-empty. -/
def listOpt {X : Type} (k : String) (enc : X → GoVal) (xs : List X) : Entries :=
  if xs.isEmpty then [] else [(k, .arr (xs.map enc))]

/-- Encode a map-of-children value. -/
def smapOf {X : Type} (enc : X → GoVal) (xs : List (String × X)) : GoVal :=
  .smap (xs.map (fun p => (p.1, enc p.2)))

/-- Emit a map field only when non-empty. -/
def mapOpt {X : Type} (k : String) (enc : X → GoVal) (xs : List (String × X)) : Entries :=
  if xs.isEmpty then [] else [(k, smapOf enc xs)]

/-- Emit a list of strings only when non-empty. -/
def strListOpt (k : String) (xs : List String) : Entries :=
  if xs.isEmpty then [] else [(k, .arr (xs.map GoVal.str))]

/-- Emit a map of strings only when non-empty. -/
def strMapOpt (k : String) (xs : List (String × String)) : Entries :=
  if xs.isEmpty then [] else [(k, .smap (xs.map (fun p => (p.1, GoVal.str p.2))))]

/-- The map[string]string field pattern. -/
def strMapField (es : Entries) (k : String) : Except String (List (String × String)) :=
  match lookupE es k with
  | some v => decodeStrStrMap v
  | none => pure []

/-! ## Leaf entities

Every decoder below ends by decoding the extension bag from the same
node and attaching it only when non-empty; an empty bag and a nil bag
are the same association list here, so the conditional attach of the
source is the plain store of the decoded (filtered) bag. -/

/-- Contact of src/contact.go. -/
structure Contact where
  name : String
  url : String
  email : String
  extensions : Extensions

/-- Contact.MarshalYAML. -/
def Contact.marshalObj (r : Contact) : Entries :=
  mergeExt (strOpt "name" r.name ++ strOpt "url" r.url ++ strOpt "email" r.email)
    r.extensions

/-- Contact.MarshalYAML as a generic value. -/
def Contact.marshalYAML (r : Contact) : GoVal :=
  .smap r.marshalObj

/-- Contact.UnmarshalYAML. -/
def Contact.unmarshalYAML (v : GoVal) : Except String Contact := do
  let es ← v.toEntries
  let exts ← Extensions.unmarshalYAML v
  pure { name := strField es "name", url := strField es "url",
         email := strField es "email", extensions := exts }

/-- License of src/license.go. -/
structure License where
  name : String
  url : String
  extensions : Extensions

/-- License.MarshalYAML: name is always emitted. -/
def License.marshalObj (r : License) : Entries :=
  mergeExt ([("name", .str r.name)] ++ strOpt "url" r.url) r.extensions

/-- License.MarshalYAML as a generic value. -/
def License.marshalYAML (r : License) : GoVal :=
  .smap r.marshalObj

/-- License.UnmarshalYAML. -/
def License.unmarshalYAML (v : GoVal) : Except String License := do
  let es ← v.toEntries
  let exts ← Extensions.unmarshalYAML v
  pure { name := strField es "name", url := strField es "url", extensions := exts }

/-- License.Clone: encode to the generic form and decode it back. -/
def License.clone (r : License) : Except String License :=
  License.unmarshalYAML r.marshalYAML

/-- Discriminator of src/securityRequirement.go (third file in that
concatenation); it carries no extension bag. -/
structure Discriminator where
  propertyName : String
  mapping : List (String × String)

/-- Discriminator.MarshalYAML: propertyName always, mapping when
non-empty. -/
def Discriminator.marshalObj (r : Discriminator) : Entries :=
  [("propertyName", .str r.propertyName)] ++ strMapOpt "mapping" r.mapping

/-- Discriminator.MarshalYAML as a generic value. -/
def Discriminator.marshalYAML (r : Discriminator) : GoVal :=
  .smap r.marshalObj

/-- Discriminator.UnmarshalYAML: the mapping value is normalized first
and kept only if it normalizes to a string-keyed map, each value then
coerced by the default string conversion. -/
def Discriminator.unmarshalYAML (v : GoVal) : Except String Discriminator := do
  let es ← v.toEntries
  let mapping :=
    match lookupE es "mapping" with
    | some mv =>
      match cleanupMapValue mv with
      | .smap ms => ms.map (fun p => (p.1, goFmt p.2))
      | _ => []
    | none => []
  pure { propertyName := strField es "propertyName", mapping := mapping }

/-- Discriminator.Clone. -/
def Discriminator.clone (r : Discriminator) : Except String Discriminator :=
  Discriminator.unmarshalYAML r.marshalYAML

/-- XML of the file carrying the XML entity (src/unnamed/part_012). -/
structure XML where
  name : String
  namespaceVal : String
  prefixVal : String
  attributeVal : Bool
  wrapped : Bool
  extensions : Extensions

/-- XML.MarshalYAML. -/
def XML.marshalObj (r : XML) : Entries :=
  mergeExt (strOpt "name" r.name ++ strOpt "namespace" r.namespaceVal ++
    strOpt "prefix" r.prefixVal ++ boolOpt "attribute" r.attributeVal ++
    boolOpt "wrapped" r.wrapped) r.extensions

/-- XML.MarshalYAML as a generic value. -/
def XML.marshalYAML (r : XML) : GoVal :=
  .smap r.marshalObj

/-- XML.UnmarshalYAML. -/
def XML.unmarshalYAML (v : GoVal) : Except String XML := do
  let es ← v.toEntries
  let exts ← Extensions.unmarshalYAML v
  pure { name := strField es "name", namespaceVal := strField es "namespace",
         prefixVal := strField es "prefix", attributeVal := boolField es "attribute",
         wrapped := boolField es "wrapped", extensions := exts }

/-- ExternalDocumentation of src/header.go (second file in that
concatenation). -/
structure ExternalDocumentation where
  description : String
  url : String
  extensions : Extensions

/-- ExternalDocumentation.MarshalYAML: url is always emitted. -/
def ExternalDocumentation.marshalObj (r : ExternalDocumentation) : Entries :=
  mergeExt (strOpt "description" r.description ++ [("url", .str r.url)]) r.extensions

/-- ExternalDocumentation.MarshalYAML as a generic value. -/
def ExternalDocumentation.marshalYAML (r : ExternalDocumentation) : GoVal :=
  .smap r.marshalObj

/-- ExternalDocumentation.UnmarshalYAML. -/
def ExternalDocumentation.unmarshalYAML (v : GoVal) :
    Except String ExternalDocumentation := do
  let es ← v.toEntries
  let exts ← Extensions.unmarshalYAML v
  pure { description := strField es "description", url := strField es "url",
         extensions := exts }

/-- Example of src/example.go. -/
structure Example where
  ref : String
  summary : String
  description : String
  value : Option GoVal
  externalValue : String
  extensions : Extensions

/-- Example.MarshalYAML. -/
def Example.marshalObj (r : Example) : Entries :=
  mergeExt (strOpt "$ref" r.ref ++ strOpt "summary" r.summary ++
    strOpt "description" r.description ++ rawOpt "value" r.value ++
    strOpt "externalValue" r.externalValue) r.extensions

/-- Example.MarshalYAML as a generic value. -/
def Example.marshalYAML (r : Example) : GoVal :=
  .smap r.marshalObj

/-- Example.UnmarshalYAML: the free-form value field is normalized. -/
def Example.unmarshalYAML (v : GoVal) : Except String Example := do
  let es ← v.toEntries
  let exts ← Extensions.unmarshalYAML v
  pure { ref := strField es "$ref", summary := strField es "summary",
         description := strField es "description", value := cleanField es "value",
         externalValue := strField es "externalValue", extensions := exts }

/-- Example.Clone. -/
def Example.clone (r : Example) : Except String Example :=
  Example.unmarshalYAML r.marshalYAML

/-- ServerVariable of src/serverVariable.go. -/
structure ServerVariable where
  enum : List String
  default : String
  description : String
  extensions : Extensions

/-- ServerVariable.MarshalYAML: default is always emitted. -/
def ServerVariable.marshalObj (r : ServerVariable) : Entries :=
  mergeExt (strListOpt "enum" r.enum ++ [("default", .str r.default)] ++
    strOpt "description" r.description) r.extensions

/-- ServerVariable.MarshalYAML as a generic value. -/
def ServerVariable.marshalYAML (r : ServerVariable) : GoVal :=
  .smap r.marshalObj

/-- ServerVariable.UnmarshalYAML: the enum accepts heterogeneous
sequence elements and coerces each with the default string
conversion. -/
def ServerVariable.unmarshalYAML (v : GoVal) : Except String ServerVariable := do
  let es ← v.toEntries
  let exts ← Extensions.unmarshalYAML v
  pure { enum := strCoerceField es "enum", default := strField es "default",
         description := strField es "description", extensions := exts }

/-- ServerVariable.Clone. -/
def ServerVariable.clone (r : ServerVariable) : Except String ServerVariable :=
  ServerVariable.unmarshalYAML r.marshalYAML

/-- Server of the file carrying the Server entity
(src/unnamed/part_002). -/
structure Server where
  url : String
  description : String
  variablesMap : List (String × ServerVariable)
  extensions : Extensions

/-- Server.MarshalYAML: url is always emitted. -/
def Server.marshalObj (r : Server) : Entries :=
  mergeExt ([("url", .str r.url)] ++ strOpt "description" r.description ++
    mapOpt "variables" ServerVariable.marshalYAML r.variablesMap) r.extensions

/-- Server.MarshalYAML as a generic value. -/
def Server.marshalYAML (r : Server) : GoVal :=
  .smap r.marshalObj

/-- Server.UnmarshalYAML. -/
def Server.unmarshalYAML (v : GoVal) : Except String Server := do
  let es ← v.toEntries
  let variablesMap ← mapField es "variables" ServerVariable.unmarshalYAML
  let exts ← Extensions.unmarshalYAML v
  pure { url := strField es "url", description := strField es "description",
         variablesMap := variablesMap, extensions := exts }

/-- Server.Clone. -/
def Server.clone (r : Server) : Except String Server :=
  Server.unmarshalYAML r.marshalYAML

/-- Link of the file carrying the Link entity (src/unnamed/part_004). -/
structure Link where
  ref : String
  operationRef : String
  operationID : String
  parameters : List (String × String)
  requestBody : String
  description : String
  server : Option Server
  extensions : Extensions

/-- Link.MarshalYAML. -/
def Link.marshalObj (r : Link) : Entries :=
  mergeExt (strOpt "$ref" r.ref ++ strOpt "operationRef" r.operationRef ++
    strOpt "operationId" r.operationID ++ strMapOpt "parameters" r.parameters ++
    strOpt "requestBody" r.requestBody ++ strOpt "description" r.description ++
    childOpt "server" Server.marshalYAML r.server) r.extensions

/-- Link.MarshalYAML as a generic value. -/
def Link.marshalYAML (r : Link) : GoVal :=
  .smap r.marshalObj

/-- Link.UnmarshalYAML. -/
def Link.unmarshalYAML (v : GoVal) : Except String Link := do
  let es ← v.toEntries
  let parameters ← strMapField es "parameters"
  let server ← optField es "server" Server.unmarshalYAML
  let exts ← Extensions.unmarshalYAML v
  pure { ref := strField es "$ref", operationRef := strField es "operationRef",
         operationID := strField es "operationId", parameters := parameters,
         requestBody := strField es "requestBody",
         description := strField es "description", server := server,
         extensions := exts }

/-- Link.Clone. -/
def Link.clone (r : Link) : Except String Link :=
  Link.unmarshalYAML r.marshalYAML

/-- OAuthFlow of src/license_test.go (second file in that
concatenation). -/
structure OAuthFlow where
  authorizationURL : String
  tokenURL : String
  refreshURL : String
  scopes : List (String × String)
  extensions : Extensions

/-- OAuthFlow.MarshalYAML: authorizationUrl, tokenUrl and scopes are
always emitted. -/
def OAuthFlow.marshalObj (r : OAuthFlow) : Entries :=
  mergeExt ([("authorizationUrl", .str r.authorizationURL),
    ("tokenUrl", .str r.tokenURL)] ++ strOpt "refreshUrl" r.refreshURL ++
    [("scopes", .smap (r.scopes.map (fun p => (p.1, GoVal.str p.2))))]) r.extensions

/-- OAuthFlow.MarshalYAML as a generic value. -/
def OAuthFlow.marshalYAML (r : OAuthFlow) : GoVal :=
  .smap r.marshalObj

/-- OAuthFlow.UnmarshalYAML. -/
def OAuthFlow.unmarshalYAML (v : GoVal) : Except String OAuthFlow := do
  let es ← v.toEntries
  let scopes ← strMapField es "scopes"
  let exts ← Extensions.unmarshalYAML v
  pure { authorizationURL := strField es "authorizationUrl",
         tokenURL := strField es "tokenUrl", refreshURL := strField es "refreshUrl",
         scopes := scopes, extensions := exts }

/-- OAuthFlow.Clone. -/
def OAuthFlow.clone (r : OAuthFlow) : Except String OAuthFlow :=
  OAuthFlow.unmarshalYAML r.marshalYAML

/-- OAuthFlows of src/example.go (second file in that concatenation). -/
structure OAuthFlows where
  implicit : Option OAuthFlow
  password : Option OAuthFlow
  clientCredentials : Option OAuthFlow
  authorizationCode : Option OAuthFlow
  extensions : Extensions

/-- OAuthFlows.MarshalYAML. -/
def OAuthFlows.marshalObj (r : OAuthFlows) : Entries :=
  mergeExt (childOpt "implicit" OAuthFlow.marshalYAML r.implicit ++
    childOpt "password" OAuthFlow.marshalYAML r.password ++
    childOpt "clientCredentials" OAuthFlow.marshalYAML r.clientCredentials ++
    childOpt "authorizationCode" OAuthFlow.marshalYAML r.authorizationCode)
    r.extensions

/-- OAuthFlows.MarshalYAML as a generic value. -/
def OAuthFlows.marshalYAML (r : OAuthFlows) : GoVal :=
  .smap r.marshalObj

/-- OAuthFlows.UnmarshalYAML. -/
def OAuthFlows.unmarshalYAML (v : GoVal) : Except String OAuthFlows := do
  let es ← v.toEntries
  let implicit ← optField es "implicit" OAuthFlow.unmarshalYAML
  let password ← optField es "password" OAuthFlow.unmarshalYAML
  let clientCredentials ← optField es "clientCredentials" OAuthFlow.unmarshalYAML
  let authorizationCode ← optField es "authorizationCode" OAuthFlow.unmarshalYAML
  let exts ← Extensions.unmarshalYAML v
  pure { implicit := implicit, password := password,
         clientCredentials := clientCredentials,
         authorizationCode := authorizationCode, extensions := exts }

/-- OAuthFlows.Clone. -/
def OAuthFlows.clone (r : OAuthFlows) : Except String OAuthFlows :=
  OAuthFlows.unmarshalYAML r.marshalYAML

/-- Tag of the file carrying the Tag entity (src/unnamed/part_007). -/
structure Tag where
  name : String
  description : String
  externalDocs : Option ExternalDocumentation
  extensions : Extensions

/-- Tag.MarshalYAML: name is always emitted. -/
def Tag.marshalObj (r : Tag) : Entries :=
  mergeExt ([("name", .str r.name)] ++ strOpt "description" r.description ++
    childOpt "externalDocs" ExternalDocumentation.marshalYAML r.externalDocs)
    r.extensions

/-- Tag.MarshalYAML as a generic value. -/
def Tag.marshalYAML (r : Tag) : GoVal :=
  .smap r.marshalObj

/-- Tag.UnmarshalYAML. -/
def Tag.unmarshalYAML (v : GoVal) : Except String Tag := do
  let es ← v.toEntries
  let externalDocs ← optField es "externalDocs" ExternalDocumentation.unmarshalYAML
  let exts ← Extensions.unmarshalYAML v
  pure { name := strField es "name", description := strField es "description",
         externalDocs := externalDocs, extensions := exts }

/-- SecurityRequirement of src/securityRequirement.go: the mapping from
security-scheme name to ordered scope list (the shape that carries
Clone; the bare scope-list shape of the same file is the modeling
defect flagged by the design notes). It has no custom codec in the
source and obeys the default yaml rules. -/
abbrev SecurityRequirement := List (String × List String)

/-- Default yaml encoding of a SecurityRequirement. -/
def SecurityRequirement.marshalYAML (r : SecurityRequirement) : GoVal :=
  .smap (r.map (fun p => (p.1, .arr (p.2.map GoVal.str))))

/-- Default yaml decoding of one scope list: every element must be a
string. -/
def decodeScopes (v : GoVal) : Except String (List String) := do
  (← v.toList).mapM (fun x =>
    match x with
    | .str s => .ok s
    | .null => .ok ""
    | _ => .error "cannot unmarshal value into string")

/-- Default yaml decoding of a SecurityRequirement. -/
def SecurityRequirement.unmarshalYAML (v : GoVal) : Except String SecurityRequirement := do
  (← v.toEntries).mapM (fun p => do pure (p.1, ← decodeScopes p.2))

/-- SecurityRequirement.Clone. -/
def SecurityRequirement.clone (r : SecurityRequirement) : Except String SecurityRequirement :=
  SecurityRequirement.unmarshalYAML (SecurityRequirement.marshalYAML r)

/-- The security list field pattern of Operation. -/
def secListField (es : Entries) (k : String) :
    Except String (List SecurityRequirement) :=
  match lookupE es k with
  | some w => do decList SecurityRequirement.unmarshalYAML (← w.toList)
  | none => pure []

/-- Go map assignments obj[k] = v performed one after the other. -/
def addAll (obj : Entries) (kvs : Entries) : Entries :=
  kvs.foldl (fun o p => setE o p.1 p.2) obj

/-! ## Schema -/

/-- Schema of src/schema.go, self-referential.  Constructor fields in
the order of the source struct:
ref, nullable, discriminator, readOnly, writeOnly, xml, externalDocs,
example, deprecated, extensions, multipleOf, maximum, exclusiveMaximum,
minimum, exclusiveMinimum, maxLength, minLength, pattern, items,
maxItems, minItems, uniqueItems, maxProperties, minProperties,
required, properties, additionalProperties, enum, type, allOf, anyOf,
oneOf, not, title, description, default, format.  The numeric
constraint fields and the free-form example and default fields are
untyped in the source and stay GoVal here. -/
inductive Schema where
  | mk
    (ref : String)
    (nullable : Bool)
    (discriminator : Option Discriminator)
    (readOnly : Bool)
    (writeOnly : Bool)
    (xml : Option XML)
    (externalDocs : Option ExternalDocumentation)
    (exampleVal : Option GoVal)
    (deprecated : Bool)
    (extensions : Extensions)
    (multipleOf : Option GoVal)
    (maximum : Option GoVal)
    (exclusiveMaximum : Bool)
    (minimum : Option GoVal)
    (exclusiveMinimum : Bool)
    (maxLength : Option GoVal)
    (minLength : Option GoVal)
    (pattern : String)
    (items : Option Schema)
    (maxItems : Option GoVal)
    (minItems : Option GoVal)
    (uniqueItems : Bool)
    (maxProperties : Option GoVal)
    (minProperties : Option GoVal)
    (required : List String)
    (properties : List (String × Schema))
    (additionalProperties : Option Schema)
    (enum : List GoVal)
    (type : String)
    (allOf : List Schema)
    (anyOf : List Schema)
    (oneOf : List Schema)
    (not : Option Schema)
    (title : String)
    (description : String)
    (default : Option GoVal)
    (format : String)
    : Schema

/-- The extension bag of a Schema. -/
def Schema.extensions : Schema → Extensions
  | .mk _ _ _ _ _ _ _ _ _ ext _ _ _ _ _ _ _ _ _ _ _ _ _ _ _ _ _ _ _ _ _ _ _ _ _ _ _ => ext

/-- The type field of a Schema. -/
def Schema.type : Schema → String
  | .mk _ _ _ _ _ _ _ _ _ _ _ _ _ _ _ _ _ _ _ _ _ _ _ _ _ _ _ _ ty _ _ _ _ _ _ _ _ => ty

/-- The nullable field of a Schema. -/
def Schema.nullable : Schema → Bool
  | .mk _ nb _ _ _ _ _ _ _ _ _ _ _ _ _ _ _ _ _ _ _ _ _ _ _ _ _ _ _ _ _ _ _ _ _ _ _ => nb

/-- The required list of a Schema. -/
def Schema.required : Schema → List String
  | .mk _ _ _ _ _ _ _ _ _ _ _ _ _ _ _ _ _ _ _ _ _ _ _ _ req _ _ _ _ _ _ _ _ _ _ _ _ => req

/-- The items child of a Schema. -/
def Schema.items : Schema → Option Schema
  | .mk _ _ _ _ _ _ _ _ _ _ _ _ _ _ _ _ _ _ it _ _ _ _ _ _ _ _ _ _ _ _ _ _ _ _ _ _ => it

/-- The properties map of a Schema. -/
def Schema.properties : Schema → List (String × Schema)
  | .mk _ _ _ _ _ _ _ _ _ _ _ _ _ _ _ _ _ _ _ _ _ _ _ _ _ props _ _ _ _ _ _ _ _ _ _ _ => props

mutual

/-- Schema.MarshalYAML.  The extension bag is merged mid-way, after
deprecated and before multipleOf, exactly as in the source; the later
assignments go through the Go map-assignment semantics so a bag entry
sharing a later field key is overwritten like in Go. -/
def Schema.marshalObj : Schema → Entries
  | .mk ref nullable discriminator readOnly writeOnly xml externalDocs exampleVal
      deprecated extensions multipleOf maximum exclusiveMaximum minimum
      exclusiveMinimum maxLength minLength pattern items maxItems minItems
      uniqueItems maxProperties minProperties required properties
      additionalProperties enum ty allOf anyOf oneOf notS title description
      dflt format =>
    addAll
      (mergeExt
        (strOpt "$ref" ref ++ boolOpt "nullable" nullable ++
          (match discriminator with
           | some d => [("discriminator", d.marshalYAML)]
           | none => []) ++
          boolOpt "readOnly" readOnly ++ boolOpt "writeOnly" writeOnly ++
          (match xml with
           | some x => [("xml", x.marshalYAML)]
           | none => []) ++
          (match externalDocs with
           | some e => [("externalDocs", e.marshalYAML)]
           | none => []) ++
          rawOpt "example" exampleVal ++ boolOpt "deprecated" deprecated)
        extensions)
      (rawOpt "multipleOf" multipleOf ++ rawOpt "maximum" maximum ++
        boolOpt "exclusiveMaximum" exclusiveMaximum ++ rawOpt "minimum" minimum ++
        boolOpt "exclusiveMinimum" exclusiveMinimum ++
        rawOpt "maxLength" maxLength ++ rawOpt "minLength" minLength ++
        strOpt "pattern" pattern ++
        (match items with
         | some s => [("items", .smap s.marshalObj)]
         | none => []) ++
        rawOpt "maxItems" maxItems ++ rawOpt "minItems" minItems ++
        boolOpt "uniqueItems" uniqueItems ++
        rawOpt "maxProperties" maxProperties ++
        rawOpt "minProperties" minProperties ++
        strListOpt "required" required ++
        (if properties.isEmpty then []
         else [("properties", .smap (Schema.marshalProps properties))]) ++
        (match additionalProperties with
         | some s => [("additionalProperties", .smap s.marshalObj)]
         | none => []) ++
        (if enum.isEmpty then [] else [("enum", .arr enum)]) ++
        strOpt "type" ty ++
        (if allOf.isEmpty then [] else [("allOf", .arr (Schema.marshalList allOf))]) ++
        (if anyOf.isEmpty then [] else [("anyOf", .arr (Schema.marshalList anyOf))]) ++
        (if oneOf.isEmpty then [] else [("oneOf", .arr (Schema.marshalList oneOf))]) ++
        (match notS with
         | some s => [("not", .smap s.marshalObj)]
         | none => []) ++
        strOpt "title" title ++ strOpt "description" description ++
        rawOpt "default" dflt ++ strOpt "format" format)

/-- Encodes each schema of an ordered group (allOf, anyOf, oneOf). -/
def Schema.marshalList : List Schema → List GoVal
  | [] => []
  | s :: ss => .smap s.marshalObj :: Schema.marshalList ss

/-- Encodes each named property schema. -/
def Schema.marshalProps : List (String × Schema) → Entries
  | [] => []
  | (k, s) :: ps => (k, .smap s.marshalObj) :: Schema.marshalProps ps

end

/-- Schema.MarshalYAML as a generic value. -/
def Schema.marshalYAML (r : Schema) : GoVal :=
  .smap r.marshalObj

/-- Schema.UnmarshalYAML with fuel; the source recursion is bounded by
the document depth. -/
def Schema.unmarshalF : Nat → GoVal → Except String Schema
  | 0, _ => .error "schema decode: recursion bound exhausted"
  | n+1, v => do
    let es ← v.toEntries
    let discriminator ← optField es "discriminator" Discriminator.unmarshalYAML
    let xml ← optField es "xml" XML.unmarshalYAML
    let externalDocs ← optField es "externalDocs" ExternalDocumentation.unmarshalYAML
    let exts ← Extensions.unmarshalYAML v
    let items ← optField es "items" (fun w => Schema.unmarshalF n w)
    let properties ← mapField es "properties" (fun w => Schema.unmarshalF n w)
    let additionalProperties ←
      optField es "additionalProperties" (fun w => Schema.unmarshalF n w)
    let allOf ← listField es "allOf" (fun w => Schema.unmarshalF n w)
    let anyOf ← listField es "anyOf" (fun w => Schema.unmarshalF n w)
    let oneOf ← listField es "oneOf" (fun w => Schema.unmarshalF n w)
    let notS ← optField es "not" (fun w => Schema.unmarshalF n w)
    pure (.mk (strField es "$ref") (boolField es "nullable") discriminator
      (boolField es "readOnly") (boolField es "writeOnly") xml externalDocs
      (cleanField es "example") (boolField es "deprecated") exts
      (rawField es "multipleOf") (rawField es "maximum")
      (boolField es "exclusiveMaximum") (rawField es "minimum")
      (boolField es "exclusiveMinimum") (rawField es "maxLength")
      (rawField es "minLength") (strField es "pattern") items
      (rawField es "maxItems") (rawField es "minItems")
      (boolField es "uniqueItems") (rawField es "maxProperties")
      (rawField es "minProperties") (strCoerceField es "required") properties
      additionalProperties
      (match lookupE es "enum" with
       | some (.arr xs) => xs
       | _ => [])
      (strField es "type") allOf anyOf oneOf notS (strField es "title")
      (strField es "description") (rawField es "default") (strField es "format"))

/-- Schema.UnmarshalYAML: the public entry point with sufficient fuel. -/
def Schema.unmarshalYAML (v : GoVal) : Except String Schema :=
  Schema.unmarshalF (goSize v + 1) v

/-! ## Header, MediaType, Encoding (mutually recursive through
content, encoding and headers maps) -/

mutual

/-- Header of src/header.go.  Constructor fields in source order:
ref, description, required, deprecated, allowEmptyValue, style,
explode, allowReserved, schema, example, examples, content,
extensions. -/
inductive Header where
  | mk
    (ref : String)
    (description : String)
    (required : Bool)
    (deprecated : Bool)
    (allowEmptyValue : Bool)
    (style : String)
    (explode : Bool)
    (allowReserved : Bool)
    (schema : Option Schema)
    (exampleVal : Option GoVal)
    (examples : List (String × Example))
    (content : List (String × MediaType))
    (extensions : Extensions)
    : Header

/-- MediaType of the file carrying the MediaType entity
(src/unnamed/part_000).  Constructor fields in source order: schema,
example, examples, encoding, extensions. -/
inductive MediaType where
  | mk
    (schema : Option Schema)
    (exampleVal : Option GoVal)
    (examples : List (String × Example))
    (encoding : List (String × Encoding))
    (extensions : Extensions)
    : MediaType

/-- Encoding of src/openapi_test.go (second file in that
concatenation).  Constructor fields in source order: contentType,
headers, style, explode, allowReserved, extensions. -/
inductive Encoding where
  | mk
    (contentType : String)
    (headers : List (String × Header))
    (style : String)
    (explode : Bool)
    (allowReserved : Bool)
    (extensions : Extensions)
    : Encoding

end

/-- The extension bag of a Header. -/
def Header.extensions : Header → Extensions
  | .mk _ _ _ _ _ _ _ _ _ _ _ _ ext => ext

/-- The extension bag of a MediaType. -/
def MediaType.extensions : MediaType → Extensions
  | .mk _ _ _ _ ext => ext

mutual

/-- Header.MarshalYAML. -/
def Header.marshalObj : Header → Entries
  | .mk ref description required deprecated allowEmptyValue style explode
      allowReserved schema exampleVal examples content extensions =>
    mergeExt
      (strOpt "$ref" ref ++ strOpt "description" description ++
        boolOpt "required" required ++ boolOpt "deprecated" deprecated ++
        boolOpt "allowEmptyValue" allowEmptyValue ++ strOpt "style" style ++
        boolOpt "explode" explode ++ boolOpt "allowReserved" allowReserved ++
        (match schema with
         | some s => [("schema", Schema.marshalYAML s)]
         | none => []) ++
        rawOpt "example" exampleVal ++
        (if examples.isEmpty then []
         else [("examples", smapOf Example.marshalYAML examples)]) ++
        (if content.isEmpty then []
         else [("content", .smap (marshalMTEntries content))]))
      extensions

/-- MediaType.MarshalYAML. -/
def MediaType.marshalObj : MediaType → Entries
  | .mk schema exampleVal examples encoding extensions =>
    mergeExt
      ((match schema with
        | some s => [("schema", Schema.marshalYAML s)]
        | none => []) ++
        rawOpt "example" exampleVal ++
        (if examples.isEmpty then []
         else [("examples", smapOf Example.marshalYAML examples)]) ++
        (if encoding.isEmpty then []
         else [("encoding", .smap (marshalEncEntries encoding))]))
      extensions

/-- Encoding.MarshalYAML. -/
def Encoding.marshalObj : Encoding → Entries
  | .mk contentType headers style explode allowReserved extensions =>
    mergeExt
      (strOpt "contentType" contentType ++
        (if headers.isEmpty then []
         else [("headers", .smap (marshalHdrEntries headers))]) ++
        strOpt "style" style ++ boolOpt "explode" explode ++
        boolOpt "allowReserved" allowReserved)
      extensions

/-- Encodes each media type of a content map. -/
def marshalMTEntries : List (String × MediaType) → Entries
  | [] => []
  | (k, m) :: ps => (k, .smap (MediaType.marshalObj m)) :: marshalMTEntries ps

/-- Encodes each encoding of an encoding map. -/
def marshalEncEntries : List (String × Encoding) → Entries
  | [] => []
  | (k, e) :: ps => (k, .smap (Encoding.marshalObj e)) :: marshalEncEntries ps

/-- Encodes each header of a headers map. -/
def marshalHdrEntries : List (String × Header) → Entries
  | [] => []
  | (k, h) :: ps => (k, .smap (Header.marshalObj h)) :: marshalHdrEntries ps

end

/-- Header.MarshalYAML as a generic value. -/
def Header.marshalYAML (r : Header) : GoVal :=
  .smap r.marshalObj

/-- MediaType.MarshalYAML as a generic value. -/
def MediaType.marshalYAML (r : MediaType) : GoVal :=
  .smap r.marshalObj

/-- Encoding.MarshalYAML as a generic value. -/
def Encoding.marshalYAML (r : Encoding) : GoVal :=
  .smap r.marshalObj

mutual

/-- Header.UnmarshalYAML with fuel.  Unlike MediaType and Schema the
raw example value of a Header is stored without normalization, exactly
as in the source. -/
def Header.unmarshalF : Nat → GoVal → Except String Header
  | 0, _ => .error "header decode: recursion bound exhausted"
  | n+1, v => do
    let es ← v.toEntries
    let schema ← optField es "schema" Schema.unmarshalYAML
    let examples ← mapField es "examples" Example.unmarshalYAML
    let content ← mapField es "content" (fun w => MediaType.unmarshalF n w)
    let exts ← Extensions.unmarshalYAML v
    pure (.mk (strField es "$ref") (strField es "description")
      (boolField es "required") (boolField es "deprecated")
      (boolField es "allowEmptyValue") (strField es "style")
      (boolField es "explode") (boolField es "allowReserved") schema
      (rawField es "example") examples content exts)

/-- MediaType.UnmarshalYAML with fuel; its example is normalized. -/
def MediaType.unmarshalF : Nat → GoVal → Except String MediaType
  | 0, _ => .error "media type decode: recursion bound exhausted"
  | n+1, v => do
    let es ← v.toEntries
    let schema ← optField es "schema" Schema.unmarshalYAML
    let examples ← mapField es "examples" Example.unmarshalYAML
    let encoding ← mapField es "encoding" (fun w => Encoding.unmarshalF n w)
    let exts ← Extensions.unmarshalYAML v
    pure (.mk schema (cleanField es "example") examples encoding exts)

/-- Encoding.UnmarshalYAML with fuel. -/
def Encoding.unmarshalF : Nat → GoVal → Except String Encoding
  | 0, _ => .error "encoding decode: recursion bound exhausted"
  | n+1, v => do
    let es ← v.toEntries
    let headers ← mapField es "headers" (fun w => Header.unmarshalF n w)
    let exts ← Extensions.unmarshalYAML v
    pure (.mk (strField es "contentType") headers (strField es "style")
      (boolField es "explode") (boolField es "allowReserved") exts)

end

/-- Header.UnmarshalYAML: the public entry point with sufficient fuel. -/
def Header.unmarshalYAML (v : GoVal) : Except String Header :=
  Header.unmarshalF (goSize v + 1) v

/-- MediaType.UnmarshalYAML: the public entry point with sufficient
fuel. -/
def MediaType.unmarshalYAML (v : GoVal) : Except String MediaType :=
  MediaType.unmarshalF (goSize v + 1) v

/-- Encoding.UnmarshalYAML: the public entry point with sufficient
fuel. -/
def Encoding.unmarshalYAML (v : GoVal) : Except String Encoding :=
  Encoding.unmarshalF (goSize v + 1) v

/-! ## Parameter, RequestBody, Response -/

/-- Parameter of src/schema.go (second file in that concatenation): the
two required fields name and in plus the embedded Header fields (the
embedded struct is a named field here; the source codec reads the
promoted fields directly and is transcribed accordingly). -/
structure Parameter where
  name : String
  inLoc : String
  header : Header

/-- Parameter.MarshalYAML: name and in are always emitted. -/
def Parameter.marshalObj (r : Parameter) : Entries :=
  match r.header with
  | .mk ref description required deprecated allowEmptyValue style explode
      allowReserved schema exampleVal examples content extensions =>
    mergeExt
      (strOpt "$ref" ref ++ [("name", .str r.name), ("in", .str r.inLoc)] ++
        strOpt "description" description ++ boolOpt "required" required ++
        boolOpt "deprecated" deprecated ++
        boolOpt "allowEmptyValue" allowEmptyValue ++ strOpt "style" style ++
        boolOpt "explode" explode ++ boolOpt "allowReserved" allowReserved ++
        (match schema with
         | some s => [("schema", Schema.marshalYAML s)]
         | none => []) ++
        rawOpt "example" exampleVal ++
        (if examples.isEmpty then []
         else [("examples", smapOf Example.marshalYAML examples)]) ++
        (if content.isEmpty then []
         else [("content", smapOf MediaType.marshalYAML content)]))
      extensions

/-- Parameter.MarshalYAML as a generic value. -/
def Parameter.marshalYAML (r : Parameter) : GoVal :=
  .smap r.marshalObj

/-- Parameter.UnmarshalYAML; its raw example is stored without
normalization like in Header. -/
def Parameter.unmarshalYAML (v : GoVal) : Except String Parameter := do
  let es ← v.toEntries
  let schema ← optField es "schema" Schema.unmarshalYAML
  let examples ← mapField es "examples" Example.unmarshalYAML
  let content ← mapField es "content" MediaType.unmarshalYAML
  let exts ← Extensions.unmarshalYAML v
  pure { name := strField es "name", inLoc := strField es "in",
         header := .mk (strField es "$ref") (strField es "description")
           (boolField es "required") (boolField es "deprecated")
           (boolField es "allowEmptyValue") (strField es "style")
           (boolField es "explode") (boolField es "allowReserved") schema
           (rawField es "example") examples content exts }

/-- RequestBody of the file carrying the RequestBody entity
(src/unnamed/part_001). -/
structure RequestBody where
  ref : String
  description : String
  content : List (String × MediaType)
  required : Bool
  extensions : Extensions

/-- RequestBody.MarshalYAML: content is always emitted. -/
def RequestBody.marshalObj (r : RequestBody) : Entries :=
  mergeExt
    (strOpt "$ref" r.ref ++ strOpt "description" r.description ++
      [("content", smapOf MediaType.marshalYAML r.content)] ++
      boolOpt "required" r.required)
    r.extensions

/-- RequestBody.MarshalYAML as a generic value. -/
def RequestBody.marshalYAML (r : RequestBody) : GoVal :=
  .smap r.marshalObj

/-- RequestBody.UnmarshalYAML. -/
def RequestBody.unmarshalYAML (v : GoVal) : Except String RequestBody := do
  let es ← v.toEntries
  let content ← mapField es "content" MediaType.unmarshalYAML
  let exts ← Extensions.unmarshalYAML v
  pure { ref := strField es "$ref", description := strField es "description",
         content := content, required := boolField es "required",
         extensions := exts }

/-- RequestBody.Clone. -/
def RequestBody.clone (r : RequestBody) : Except String RequestBody :=
  RequestBody.unmarshalYAML r.marshalYAML

/-- Response of src/response.go. -/
structure Response where
  ref : String
  description : String
  headers : List (String × Header)
  content : List (String × MediaType)
  links : List (String × Link)
  extensions : Extensions

/-- Response.MarshalYAML: description is always emitted. -/
def Response.marshalObj (r : Response) : Entries :=
  mergeExt
    (strOpt "$ref" r.ref ++ [("description", .str r.description)] ++
      mapOpt "headers" Header.marshalYAML r.headers ++
      mapOpt "content" MediaType.marshalYAML r.content ++
      mapOpt "links" Link.marshalYAML r.links)
    r.extensions

/-- Response.MarshalYAML as a generic value. -/
def Response.marshalYAML (r : Response) : GoVal :=
  .smap r.marshalObj

/-- Response.UnmarshalYAML. -/
def Response.unmarshalYAML (v : GoVal) : Except String Response := do
  let es ← v.toEntries
  let headers ← mapField es "headers" Header.unmarshalYAML
  let content ← mapField es "content" MediaType.unmarshalYAML
  let links ← mapField es "links" Link.unmarshalYAML
  let exts ← Extensions.unmarshalYAML v
  pure { ref := strField es "$ref", description := strField es "description",
         headers := headers, content := content, links := links,
         extensions := exts }

/-! ## Operation, PathItem, Callback (mutually recursive through the
callbacks map of an operation) -/

mutual

/-- Operation of src/operation.go.  Constructor fields in source order:
tags, summary, description, externalDocs, operationID, parameters,
requestBody, responses, callbacks, deprecated, security, servers,
extensions.  Callbacks and Servers are emitted by the source under a
nil check rather than a length check, so they are Option-typed. -/
inductive Operation where
  | mk
    (tags : List String)
    (summary : String)
    (description : String)
    (externalDocs : Option ExternalDocumentation)
    (operationID : String)
    (parameters : List Parameter)
    (requestBody : Option RequestBody)
    (responses : List (String × Response))
    (callbacks : Option (List (String × Callback)))
    (deprecated : Bool)
    (security : List SecurityRequirement)
    (servers : Option (List Server))
    (extensions : Extensions)
    : Operation

/-- PathItem of src/pathItem.go.  Constructor fields in source order:
ref, summary, description, get, put, post, delete, options, head,
patch, trace, servers, parameters, extensions. -/
inductive PathItem where
  | mk
    (ref : String)
    (summary : String)
    (description : String)
    (get : Option Operation)
    (put : Option Operation)
    (post : Option Operation)
    (delete : Option Operation)
    (options : Option Operation)
    (head : Option Operation)
    (patch : Option Operation)
    (trace : Option Operation)
    (servers : List Server)
    (parameters : List Parameter)
    (extensions : Extensions)
    : PathItem

/-- Callback of src/header_test.go (second file in that
concatenation): a reference plus a map of path items plus the extension
bag. -/
inductive Callback where
  | mk
    (ref : String)
    (callbackItems : List (String × PathItem))
    (extensions : Extensions)
    : Callback

end

/-- The extension bag of an Operation. -/
def Operation.extensions : Operation → Extensions
  | .mk _ _ _ _ _ _ _ _ _ _ _ _ ext => ext

/-- The tags of an Operation. -/
def Operation.tags : Operation → List String
  | .mk tags _ _ _ _ _ _ _ _ _ _ _ _ => tags

/-- The responses of an Operation. -/
def Operation.responses : Operation → List (String × Response)
  | .mk _ _ _ _ _ _ _ resp _ _ _ _ _ => resp

/-- The extension bag of a PathItem. -/
def PathItem.extensions : PathItem → Extensions
  | .mk _ _ _ _ _ _ _ _ _ _ _ _ _ ext => ext

/-- The path item map of a Callback. -/
def Callback.callbackItems : Callback → List (String × PathItem)
  | .mk _ items _ => items

/-- The extension bag of a Callback. -/
def Callback.extensions : Callback → Extensions
  | .mk _ _ ext => ext

mutual

/-- Operation.MarshalYAML: responses is always emitted; callbacks and
servers are emitted whenever the Go slice or map is non-nil, even
empty. -/
def Operation.marshalObj : Operation → Entries
  | .mk tags summary description externalDocs operationID parameters
      requestBody responses callbacks deprecated security servers extensions =>
    mergeExt
      (strListOpt "tags" tags ++ strOpt "summary" summary ++
        strOpt "description" description ++
        (match externalDocs with
         | some e => [("externalDocs", e.marshalYAML)]
         | none => []) ++
        strOpt "operationId" operationID ++
        listOpt "parameters" Parameter.marshalYAML parameters ++
        (match requestBody with
         | some b => [("requestBody", b.marshalYAML)]
         | none => []) ++
        [("responses", smapOf Response.marshalYAML responses)] ++
        (match callbacks with
         | some cbs => [("callbacks", .smap (marshalCbEntries cbs))]
         | none => []) ++
        boolOpt "deprecated" deprecated ++
        (if security.isEmpty then []
         else [("security", .arr (security.map SecurityRequirement.marshalYAML))]) ++
        (match servers with
         | some ss => [("servers", .arr (ss.map Server.marshalYAML))]
         | none => []))
      extensions

/-- PathItem.MarshalYAML. -/
def PathItem.marshalObj : PathItem → Entries
  | .mk ref summary description get put post delete options head patch trace
      servers parameters extensions =>
    mergeExt
      (strOpt "$ref" ref ++ strOpt "summary" summary ++
        strOpt "description" description ++
        (match get with
         | some o => [("get", .smap (Operation.marshalObj o))]
         | none => []) ++
        (match put with
         | some o => [("put", .smap (Operation.marshalObj o))]
         | none => []) ++
        (match post with
         | some o => [("post", .smap (Operation.marshalObj o))]
         | none => []) ++
        (match delete with
         | some o => [("delete", .smap (Operation.marshalObj o))]
         | none => []) ++
        (match options with
         | some o => [("options", .smap (Operation.marshalObj o))]
         | none => []) ++
        (match head with
         | some o => [("head", .smap (Operation.marshalObj o))]
         | none => []) ++
        (match patch with
         | some o => [("patch", .smap (Operation.marshalObj o))]
         | none => []) ++
        (match trace with
         | some o => [("trace", .smap (Operation.marshalObj o))]
         | none => []) ++
        listOpt "servers" Server.marshalYAML servers ++
        listOpt "parameters" Parameter.marshalYAML parameters)
      extensions

/-- Callback.MarshalYAML: the reference first, then every callback item
keyed verbatim through the Go map-assignment semantics, then the
extension bag. -/
def Callback.marshalObj : Callback → Entries
  | .mk ref callbackItems extensions =>
    mergeExt (addAll (strOpt "$ref" ref) (marshalCbPIEntries callbackItems))
      extensions

/-- Encodes each callback of a callbacks map. -/
def marshalCbEntries : List (String × Callback) → Entries
  | [] => []
  | (k, c) :: ps => (k, .smap (Callback.marshalObj c)) :: marshalCbEntries ps

/-- Encodes each path item of a callback items map. -/
def marshalCbPIEntries : List (String × PathItem) → Entries
  | [] => []
  | (k, pi) :: ps => (k, .smap (PathItem.marshalObj pi)) :: marshalCbPIEntries ps

end

/-- Operation.MarshalYAML as a generic value. -/
def Operation.marshalYAML (r : Operation) : GoVal :=
  .smap r.marshalObj

/-- PathItem.MarshalYAML as a generic value. -/
def PathItem.marshalYAML (r : PathItem) : GoVal :=
  .smap r.marshalObj

/-- Callback.MarshalYAML as a generic value. -/
def Callback.marshalYAML (r : Callback) : GoVal :=
  .smap r.marshalObj

mutual

/-- Operation.UnmarshalYAML with fuel.  The decoder of the source
decodes the extension bag from the same node at the end but never
stores it (src/operation.go lines 311 to 316, in contrast with every
other entity decoder of the package): the bind is kept for its error
behavior and the decoded entity always carries an empty bag. -/
def Operation.unmarshalF : Nat → GoVal → Except String Operation
  | 0, _ => .error "operation decode: recursion bound exhausted"
  | n+1, v => do
    let es ← v.toEntries
    let externalDocs ← optField es "externalDocs" ExternalDocumentation.unmarshalYAML
    let parameters ← listField es "parameters" Parameter.unmarshalYAML
    let requestBody ← optField es "requestBody" RequestBody.unmarshalYAML
    let responses ← mapField es "responses" Response.unmarshalYAML
    let callbacks ← optMapField es "callbacks" (fun u => Callback.unmarshalF n u)
    let security ← secListField es "security"
    let servers ← optListField es "servers" Server.unmarshalYAML
    let _exts ← Extensions.unmarshalYAML v
    pure (.mk (strCoerceField es "tags") (strField es "summary")
      (strField es "description") externalDocs (strField es "operationId")
      parameters requestBody responses callbacks (boolField es "deprecated")
      security servers [])

/-- PathItem.UnmarshalYAML with fuel. -/
def PathItem.unmarshalF : Nat → GoVal → Except String PathItem
  | 0, _ => .error "path item decode: recursion bound exhausted"
  | n+1, v => do
    let es ← v.toEntries
    let get ← optField es "get" (fun u => Operation.unmarshalF n u)
    let put ← optField es "put" (fun u => Operation.unmarshalF n u)
    let post ← optField es "post" (fun u => Operation.unmarshalF n u)
    let delete ← optField es "delete" (fun u => Operation.unmarshalF n u)
    let options ← optField es "options" (fun u => Operation.unmarshalF n u)
    let head ← optField es "head" (fun u => Operation.unmarshalF n u)
    let patch ← optField es "patch" (fun u => Operation.unmarshalF n u)
    let trace ← optField es "trace" (fun u => Operation.unmarshalF n u)
    let servers ← listField es "servers" Server.unmarshalYAML
    let parameters ← listField es "parameters" Parameter.unmarshalYAML
    let exts ← Extensions.unmarshalYAML v
    pure (.mk (strField es "$ref") (strField es "summary")
      (strField es "description") get put post delete options head patch trace
      servers parameters exts)

/-- Callback.UnmarshalYAML with fuel: after the reference, the whole
node is decoded again as a map of path items (every value, the
extension values included, runs through the PathItem decoder; only the
keys whose lowercase form does not start with x- are kept), and then
once more as the extension bag. -/
def Callback.unmarshalF : Nat → GoVal → Except String Callback
  | 0, _ => .error "callback decode: recursion bound exhausted"
  | n+1, v => do
    let es ← v.toEntries
    let allItems ← decodeSMap (fun u => PathItem.unmarshalF n u) v
    let exts ← Extensions.unmarshalYAML v
    pure (.mk (strField es "$ref")
      (allItems.filter (fun p => !(isExt p.1))) exts)

end

/-- Operation.UnmarshalYAML: the public entry point with sufficient
fuel. -/
def Operation.unmarshalYAML (v : GoVal) : Except String Operation :=
  Operation.unmarshalF (goSize v + 1) v

/-- PathItem.UnmarshalYAML: the public entry point with sufficient
fuel. -/
def PathItem.unmarshalYAML (v : GoVal) : Except String PathItem :=
  PathItem.unmarshalF (goSize v + 1) v

/-- Callback.UnmarshalYAML: the public entry point with sufficient
fuel. -/
def Callback.unmarshalYAML (v : GoVal) : Except String Callback :=
  Callback.unmarshalF (goSize v + 1) v

/-- Operation.Clone. -/
def Operation.clone (r : Operation) : Except String Operation :=
  Operation.unmarshalYAML r.marshalYAML

/-- PathItem.Clone. -/
def PathItem.clone (r : PathItem) : Except String PathItem :=
  PathItem.unmarshalYAML r.marshalYAML

/-! ## PathItems, CallbackItems, Paths, Info -/

/-- PathItems of src/pathItems.go: the collection of path items. -/
abbrev PathItems := List (String × PathItem)

/-- PathItems.MarshalYAML: keep only the keys whose lowercase form does
not start with x-. -/
def PathItems.marshalYAML (r : PathItems) : GoVal :=
  .smap ((r.filter (fun p => !(isExt p.1))).map
    (fun p => (p.1, PathItem.marshalYAML p.2)))

/-- PathItems.UnmarshalYAML: decode the whole map into path items
(every value runs through the PathItem decoder, whatever its key), then
keep only the keys whose lowercase form does not start with x-. -/
def PathItems.unmarshalYAML (v : GoVal) : Except String PathItems := do
  let obj ← decodeSMap PathItem.unmarshalYAML v
  pure (obj.filter (fun p => !(isExt p.1)))

/-- Modelled from the spec: the CallbackItems collection named by
Callback.CallbackItems is code of this repository that is not under
src/ (only its uses are).  Per the spec (sections 3 and 4.2) it is the
map-of-path-items twin of PathItems, decoded by decoding the entire map
into the specialized map-of-entity type and keeping the keys not
matching the x- prefix. -/
abbrev CallbackItems := List (String × PathItem)

/-- Modelled from the spec: CallbackItems decoding, the twin of
PathItems.UnmarshalYAML. -/
def CallbackItems.unmarshalYAML (v : GoVal) : Except String CallbackItems := do
  let obj ← decodeSMap PathItem.unmarshalYAML v
  pure (obj.filter (fun p => !(isExt p.1)))

/-- Paths of src/paths.go. -/
structure Paths where
  pathItems : List (String × PathItem)
  extensions : Extensions

/-- Paths.MarshalYAML: every path item keyed verbatim, then the
extension bag. -/
def Paths.marshalObj (r : Paths) : Entries :=
  mergeExt (r.pathItems.map (fun p => (p.1, PathItem.marshalYAML p.2)))
    r.extensions

/-- Paths.MarshalYAML as a generic value. -/
def Paths.marshalYAML (r : Paths) : GoVal :=
  .smap r.marshalObj

/-- Paths.UnmarshalYAML: the node is decoded three times from the same
source, first into a throwaway generic map, then into the path item
collection, then into the extension bag. -/
def Paths.unmarshalYAML (v : GoVal) : Except String Paths := do
  let _obj ← v.toEntries
  let paths ← PathItems.unmarshalYAML v
  let exts ← Extensions.unmarshalYAML v
  pure { pathItems := paths, extensions := exts }

/-- Info of src/info.go. -/
structure Info where
  title : String
  description : String
  termsOfService : String
  contact : Option Contact
  license : Option License
  version : String
  extensions : Extensions

/-- Info.MarshalYAML: title and version are always emitted. -/
def Info.marshalObj (r : Info) : Entries :=
  mergeExt
    ([("title", .str r.title)] ++ strOpt "description" r.description ++
      strOpt "termsOfService" r.termsOfService ++
      childOpt "contact" Contact.marshalYAML r.contact ++
      childOpt "license" License.marshalYAML r.license ++
      [("version", .str r.version)])
    r.extensions

/-- Info.MarshalYAML as a generic value. -/
def Info.marshalYAML (r : Info) : GoVal :=
  .smap r.marshalObj

/-- Info.UnmarshalYAML. -/
def Info.unmarshalYAML (v : GoVal) : Except String Info := do
  let es ← v.toEntries
  let contact ← optField es "contact" Contact.unmarshalYAML
  let license ← optField es "license" License.unmarshalYAML
  let exts ← Extensions.unmarshalYAML v
  pure { title := strField es "title", description := strField es "description",
         termsOfService := strField es "termsOfService", contact := contact,
         license := license, version := strField es "version",
         extensions := exts }

/-! ## Concrete values used by the closed statements -/

/-- A minimal ok response. -/
def respOk : Response :=
  { ref := "", description := "ok", headers := [], content := [], links := [],
    extensions := [] }

/-- An operation with one response and one vendor extension. -/
def opRt : Operation :=
  .mk [] "" "" none "" [] none [("200", respOk)] none false [] none
    [("x-a", .str "1")]

/-- What decoding the encoding of opRt actually returns: the same
operation with an empty extension bag. -/
def opRtStripped : Operation :=
  .mk [] "" "" none "" [] none [("200", respOk)] none false [] none []

/-- The zero operation: every field at its zero value. -/
def opZero : Operation :=
  .mk [] "" "" none "" [] none [] none false [] none []

/-- A created response used by the clone counterexample. -/
def respCreated : Response :=
  { ref := "", description := "created", headers := [], content := [],
    links := [], extensions := [] }

/-- An operation with a summary, one response and one vendor extension,
used by the clone counterexample. -/
def opCl : Operation :=
  .mk [] "s" "" none "" [] none [("201", respCreated)] none false [] none
    [("x-b", .int 2)]

/-- What Operation.Clone actually returns for opCl. -/
def opClStripped : Operation :=
  .mk [] "s" "" none "" [] none [("201", respCreated)] none false [] none []

/-- A license with a vendor extension. -/
def licMIT : License :=
  { name := "MIT", url := "https://mit.example", extensions := [("x-l", .bool true)] }

/-- A server variable with an enum and a vendor extension. -/
def svPort : ServerVariable :=
  { enum := ["8443", "443"], default := "8443", description := "",
    extensions := [("x-v", .str "u")] }

/-- The zero path item. -/
def piZero : PathItem :=
  .mk "" "" "" none none none none none none none none [] [] []

/-- The zero info. -/
def infoZero : Info :=
  { title := "", description := "", termsOfService := "", contact := none,
    license := none, version := "", extensions := [] }

/-- The zero schema. -/
def schemaZero : Schema :=
  .mk "" false none false false none none none false [] none none false none
    false none none "" none none none false none none [] [] none [] "" [] []
    [] none "" "" none ""

/-- An info whose extension bag holds a key without the x- prefix. -/
def infoFoo : Info :=
  { title := "", description := "", termsOfService := "", contact := none,
    license := none, version := "", extensions := [("foo", .str "b")] }

/-- A response with description d. -/
def respD : Response :=
  { ref := "", description := "d", headers := [], content := [], links := [],
    extensions := [] }

/-- What the operation decoder returns for a map with one response and
one vendor extension: the bag is left empty. -/
def opC4dec : Operation :=
  .mk [] "" "" none "" [] none [("200", respD)] none false [] none []

/-- The zero schema with one vendor extension attached. -/
def schemaXk : Schema :=
  .mk "" false none false false none none none false [("x-k", .int 7)] none
    none false none false none none "" none none none false none none [] []
    none [] "" [] [] [] none "" "" none ""

/-- The zero schema whose extension bag holds a key without the x-
prefix. -/
def schemaFoo : Schema :=
  .mk "" false none false false none none none false [("foo", .str "b")] none
    none false none false none none "" none none none false none none [] []
    none [] "" [] [] [] none "" "" none ""

/-- The decoded server variable of the port enum scenario. -/
def svDec8443 : ServerVariable :=
  { enum := ["8443", "443"], default := "8443", description := "",
    extensions := [] }

/-- The decoded paths of the split scenario. -/
def pathsPetsXu : Paths :=
  { pathItems := [("/pets", piZero)], extensions := [("x-u", .smap [])] }

/-- Info with every optional field at zero. -/
def zInfo (t ver : String) (ext : Extensions) : Info :=
  { title := t, description := "", termsOfService := "", contact := none,
    license := none, version := ver, extensions := ext }

/-- Response with every optional field at zero. -/
def zResponse (d : String) (ext : Extensions) : Response :=
  { ref := "", description := d, headers := [], content := [], links := [],
    extensions := ext }

/-- OAuthFlow with every optional field at zero. -/
def zOAuthFlow (a b : String) (sc : List (String × String))
    (ext : Extensions) : OAuthFlow :=
  { authorizationURL := a, tokenURL := b, refreshURL := "", scopes := sc,
    extensions := ext }

/-- Contact with every optional field at zero. -/
def zContact (ext : Extensions) : Contact :=
  { name := "", url := "", email := "", extensions := ext }

/-- License with every optional field at zero. -/
def zLicense (n : String) (ext : Extensions) : License :=
  { name := n, url := "", extensions := ext }

/-- Discriminator with every optional field at zero. -/
def zDiscriminator (pn : String) : Discriminator :=
  { propertyName := pn, mapping := [] }

/-- XML with every optional field at zero. -/
def zXML (ext : Extensions) : XML :=
  { name := "", namespaceVal := "", prefixVal := "", attributeVal := false,
    wrapped := false, extensions := ext }

/-- ExternalDocumentation with every optional field at zero. -/
def zExternalDocumentation (u : String) (ext : Extensions) :
    ExternalDocumentation :=
  { description := "", url := u, extensions := ext }

/-- Example with every optional field at zero. -/
def zExample (ext : Extensions) : Example :=
  { ref := "", summary := "", description := "", value := none,
    externalValue := "", extensions := ext }

/-- ServerVariable with every optional field at zero. -/
def zServerVariable (d : String) (ext : Extensions) : ServerVariable :=
  { enum := [], default := d, description := "", extensions := ext }

/-- Server with every optional field at zero. -/
def zServer (u : String) (ext : Extensions) : Server :=
  { url := u, description := "", variablesMap := [], extensions := ext }

/-- Link with every optional field at zero. -/
def zLink (ext : Extensions) : Link :=
  { ref := "", operationRef := "", operationID := "", parameters := [],
    requestBody := "", description := "", server := none, extensions := ext }

/-- OAuthFlows with every optional field at zero. -/
def zOAuthFlows (ext : Extensions) : OAuthFlows :=
  { implicit := none, password := none, clientCredentials := none,
    authorizationCode := none, extensions := ext }

/-- Tag with every optional field at zero. -/
def zTag (n : String) (ext : Extensions) : Tag :=
  { name := n, description := "", externalDocs := none, extensions := ext }

/-- Schema with every optional field at zero. -/
def zSchema (ext : Extensions) : Schema :=
  .mk "" false none false false none none none false ext none none false none
    false none none "" none none none false none none [] [] none [] "" [] []
    [] none "" "" none ""

/-- Header with every optional field at zero. -/
def zHeader (ext : Extensions) : Header :=
  .mk "" "" false false false "" false false none none [] [] ext

/-- MediaType with every optional field at zero. -/
def zMediaType (ext : Extensions) : MediaType :=
  .mk none none [] [] ext

/-- Encoding with every optional field at zero. -/
def zEncoding (ext : Extensions) : Encoding :=
  .mk "" [] "" false false ext

/-- Parameter with every optional field at zero. -/
def zParameter (n i : String) (ext : Extensions) : Parameter :=
  { name := n, inLoc := i, header := zHeader ext }

/-- RequestBody with every optional field at zero. -/
def zRequestBody (cs : List (String × MediaType)) (ext : Extensions) :
    RequestBody :=
  { ref := "", description := "", content := cs, required := false,
    extensions := ext }

/-- Operation with every optional field at zero. -/
def zOperation (rs : List (String × Response)) (ext : Extensions) : Operation :=
  .mk [] "" "" none "" [] none rs none false [] none ext

/-- PathItem with every optional field at zero. -/
def zPathItem (ext : Extensions) : PathItem :=
  .mk "" "" "" none none none none none none none none [] [] ext

/-- Callback with every optional field at zero. -/
def zCallback (ext : Extensions) : Callback :=
  .mk "" [] ext

/-- Paths with every optional field at zero. -/
def zPaths (ext : Extensions) : Paths :=
  { pathItems := [], extensions := ext }

/-! ## Supporting lemmas -/

theorem ok_bind {α β : Type} (a : α) (f : α → Except String β) :
    (Except.ok a >>= f) = f a := rfl

theorem exceptBindOk {α β : Type} {x : Except String α} {f : α → Except String β}
    {b : β} (h : (x >>= f) = Except.ok b) :
    ∃ a, x = Except.ok a ∧ f a = Except.ok b := by
  cases x with
  | ok a => exact ⟨a, rfl, h⟩
  | error e => exact nomatch h

theorem extsUnmarshal_smap (es : Entries) :
    Extensions.unmarshalYAML (.smap es) = .ok (extsOf es) := rfl

theorem decEntries_ok_keys {X : Type} {dec : GoVal → Except String X} :
    ∀ {es : List (String × GoVal)} {obj : List (String × X)},
      decEntries dec es = .ok obj → obj.map Prod.fst = es.map Prod.fst := by
  intro es
  induction es with
  | nil =>
    intro obj h
    cases h
    rfl
  | cons p ps ih =>
    intro obj h
    simp only [decEntries] at h
    obtain ⟨x, _, h⟩ := exceptBindOk h
    obtain ⟨rest, hrest, h⟩ := exceptBindOk h
    cases h
    simp only [List.map_cons, ih hrest]

theorem map_fst_filter {X : Type} (q : String → Bool) :
    ∀ l : List (String × X),
      (l.filter (fun p => q p.1)).map Prod.fst = (l.map Prod.fst).filter q := by
  intro l
  induction l with
  | nil => rfl
  | cons p ps ih =>
    by_cases hq : q p.1
    · simp [List.filter_cons, hq, ih]
    · simp [List.filter_cons, hq, ih]

theorem extsOf_keys (es : Entries) :
    (extsOf es).map Prod.fst = (es.map Prod.fst).filter (fun k => isExt k) := by
  unfold extsOf
  rw [List.map_map]
  have : (Prod.fst ∘ fun p : String × GoVal => (p.1, cleanupMapValue p.2)) = Prod.fst := rfl
  rw [this]
  exact map_fst_filter _ es

theorem lookupE_setE_self (obj : Entries) (k : String) (v : GoVal) :
    lookupE (setE obj k v) k = some v := by
  induction obj with
  | nil => simp [setE, lookupE]
  | cons p ps ih =>
    by_cases hp : p.1 = k
    · simp [setE, hp, lookupE]
    · simp [setE, hp, lookupE, ih]

theorem lookupE_setE_ne (obj : Entries) (k k' : String) (v : GoVal)
    (h : k' ≠ k) : lookupE (setE obj k' v) k = lookupE obj k := by
  induction obj with
  | nil => simp [setE, lookupE, h]
  | cons p ps ih =>
    by_cases hp : p.1 = k'
    · have hpk : p.1 ≠ k := fun hc => h (hp ▸ hc)
      simp [setE, hp, lookupE, h, hpk]
    · by_cases hk : p.1 = k
      · simp only [setE, if_neg hp]
        simp [lookupE, hk]
      · simp only [setE, if_neg hp]
        simp [lookupE, hk, ih]

theorem keysE_setE_notmem (obj : Entries) (k : String) (v : GoVal)
    (h : k ∉ keysE obj) : keysE (setE obj k v) = keysE obj ++ [k] := by
  induction obj with
  | nil => simp [setE, keysE]
  | cons p ps ih =>
    simp only [keysE, List.map_cons, List.mem_cons, not_or] at h
    have hp : p.1 ≠ k := fun hc => h.1 hc.symm
    simp only [setE, hp, if_neg]
    simp only [keysE, List.map_cons, List.cons_append]
    exact congrArg (p.1 :: ·) (ih (by simpa [keysE] using h.2))

theorem mergeExt_keys :
    ∀ (ext : Extensions) (obj : Entries),
      (∀ k ∈ ext.map Prod.fst, k ∉ keysE obj) →
      (ext.map Prod.fst).Nodup →
      keysE (mergeExt obj ext) = keysE obj ++ ext.map Prod.fst := by
  intro ext
  induction ext with
  | nil => intro obj _ _; simp [mergeExt]
  | cons p ps ih =>
    intro obj hd hn
    simp only [List.map_cons, List.nodup_cons] at hn
    have hstep : keysE (setE obj p.1 p.2) = keysE obj ++ [p.1] :=
      keysE_setE_notmem obj p.1 p.2 (hd p.1 (by simp))
    have : mergeExt obj (p :: ps) = mergeExt (setE obj p.1 p.2) ps := rfl
    rw [this, ih (setE obj p.1 p.2) ?_ hn.2, hstep]
    · simp
    · intro k hk
      rw [hstep]
      intro hc
      rcases List.mem_append.mp hc with hmem | hmem
      · exact hd k (by simp [hk]) hmem
      · simp only [List.mem_singleton] at hmem
        exact hn.1 (hmem ▸ hk)

theorem mergeExt_lookup_nomem :
    ∀ (ext : Extensions) (obj : Entries) (k : String),
      k ∉ ext.map Prod.fst →
      lookupE (mergeExt obj ext) k = lookupE obj k := by
  intro ext
  induction ext with
  | nil => intro obj k _; rfl
  | cons p ps ih =>
    intro obj k h
    simp only [List.map_cons, List.mem_cons, not_or] at h
    have : mergeExt obj (p :: ps) = mergeExt (setE obj p.1 p.2) ps := rfl
    rw [this, ih _ _ h.2, lookupE_setE_ne _ _ _ _ (fun hc => h.1 hc.symm)]

theorem mergeExt_lookup_self :
    ∀ (ext : Extensions) (obj : Entries) (k : String) (v : GoVal),
      (ext.map Prod.fst).Nodup → (k, v) ∈ ext →
      lookupE (mergeExt obj ext) k = some v := by
  intro ext
  induction ext with
  | nil => intro obj k v _ hmem; cases hmem
  | cons p ps ih =>
    intro obj k v hn hmem
    simp only [List.map_cons, List.nodup_cons] at hn
    have hstep : mergeExt obj (p :: ps) = mergeExt (setE obj p.1 p.2) ps := rfl
    rcases List.mem_cons.mp hmem with hh | ht
    · subst hh
      rw [hstep, mergeExt_lookup_nomem ps _ k hn.1]
      exact lookupE_setE_self obj k v
    · exact hstep ▸ ih _ k v hn.2 ht

theorem infoUnmarshalFields {es : Entries} {e : Info}
    (h : Info.unmarshalYAML (.smap es) = .ok e) :
    e.title = strField es "title" ∧ e.description = strField es "description" ∧
    e.termsOfService = strField es "termsOfService" ∧
    e.version = strField es "version" ∧ e.extensions = extsOf es := by
  simp only [Info.unmarshalYAML, GoVal.toEntries, ok_bind] at h
  obtain ⟨c, hc, h⟩ := exceptBindOk h
  obtain ⟨l, hl, h⟩ := exceptBindOk h
  obtain ⟨x, hx, h⟩ := exceptBindOk h
  rw [extsUnmarshal_smap] at hx
  cases hx
  cases h
  exact ⟨rfl, rfl, rfl, rfl, rfl⟩

theorem serverVariableUnmarshalFields {es : Entries} {r : ServerVariable}
    (h : ServerVariable.unmarshalYAML (.smap es) = .ok r) :
    r.enum = strCoerceField es "enum" ∧ r.default = strField es "default" ∧
    r.description = strField es "description" ∧ r.extensions = extsOf es := by
  simp only [ServerVariable.unmarshalYAML, GoVal.toEntries, ok_bind] at h
  obtain ⟨x, hx, h⟩ := exceptBindOk h
  rw [extsUnmarshal_smap] at hx
  cases hx
  cases h
  exact ⟨rfl, rfl, rfl, rfl⟩

theorem responseUnmarshalFields {es : Entries} {r : Response}
    (h : Response.unmarshalYAML (.smap es) = .ok r) :
    r.ref = strField es "$ref" ∧ r.description = strField es "description" ∧
    r.extensions = extsOf es := by
  simp only [Response.unmarshalYAML, GoVal.toEntries, ok_bind] at h
  obtain ⟨hs, hhs, h⟩ := exceptBindOk h
  obtain ⟨ct, hct, h⟩ := exceptBindOk h
  obtain ⟨lk, hlk, h⟩ := exceptBindOk h
  obtain ⟨x, hx, h⟩ := exceptBindOk h
  rw [extsUnmarshal_smap] at hx
  cases hx
  cases h
  exact ⟨rfl, rfl, rfl⟩

theorem schemaUnmarshalFields {es : Entries} {s : Schema}
    (h : Schema.unmarshalYAML (.smap es) = .ok s) :
    s.type = strField es "type" ∧ s.nullable = boolField es "nullable" ∧
    s.required = strCoerceField es "required" ∧ s.extensions = extsOf es := by
  simp only [Schema.unmarshalYAML, Schema.unmarshalF, GoVal.toEntries, ok_bind] at h
  obtain ⟨d, hd, h⟩ := exceptBindOk h
  obtain ⟨x1, hx1, h⟩ := exceptBindOk h
  obtain ⟨x2, hx2, h⟩ := exceptBindOk h
  obtain ⟨x3, hx3, h⟩ := exceptBindOk h
  obtain ⟨x4, hx4, h⟩ := exceptBindOk h
  obtain ⟨x5, hx5, h⟩ := exceptBindOk h
  obtain ⟨x6, hx6, h⟩ := exceptBindOk h
  obtain ⟨x7, hx7, h⟩ := exceptBindOk h
  obtain ⟨x8, hx8, h⟩ := exceptBindOk h
  obtain ⟨x9, hx9, h⟩ := exceptBindOk h
  obtain ⟨x10, hx10, h⟩ := exceptBindOk h
  rw [extsUnmarshal_smap] at hx3
  cases hx3
  cases h
  exact ⟨rfl, rfl, rfl, rfl⟩

theorem operationUnmarshalFields {es : Entries} {o : Operation}
    (h : Operation.unmarshalYAML (.smap es) = .ok o) :
    o.tags = strCoerceField es "tags" ∧ o.extensions = [] := by
  simp only [Operation.unmarshalYAML, Operation.unmarshalF, GoVal.toEntries,
    ok_bind] at h
  obtain ⟨x1, hx1, h⟩ := exceptBindOk h
  obtain ⟨x2, hx2, h⟩ := exceptBindOk h
  obtain ⟨x3, hx3, h⟩ := exceptBindOk h
  obtain ⟨x4, hx4, h⟩ := exceptBindOk h
  obtain ⟨x5, hx5, h⟩ := exceptBindOk h
  obtain ⟨x6, hx6, h⟩ := exceptBindOk h
  obtain ⟨x7, hx7, h⟩ := exceptBindOk h
  obtain ⟨x8, hx8, h⟩ := exceptBindOk h
  cases h
  exact ⟨rfl, rfl⟩

theorem pathsUnmarshalSplit {es : Entries} {p : Paths}
    (h : Paths.unmarshalYAML (.smap es) = .ok p) :
    p.pathItems.map Prod.fst = (es.map Prod.fst).filter (fun k => !(isExt k)) ∧
    p.extensions.map Prod.fst = (es.map Prod.fst).filter (fun k => isExt k) := by
  simp only [Paths.unmarshalYAML, GoVal.toEntries, ok_bind] at h
  obtain ⟨paths, hp, h⟩ := exceptBindOk h
  obtain ⟨x, hx, h⟩ := exceptBindOk h
  rw [extsUnmarshal_smap] at hx
  cases hx
  cases h
  refine ⟨?_, extsOf_keys es⟩
  simp only [PathItems.unmarshalYAML, decodeSMap, GoVal.toEntries, ok_bind] at hp
  obtain ⟨obj, hobj, hp⟩ := exceptBindOk hp
  cases hp
  dsimp only
  calc (obj.filter (fun p => !(isExt p.1))).map Prod.fst
      = (obj.map Prod.fst).filter (fun k => !(isExt k)) := map_fst_filter (fun k => !(isExt k)) obj
    _ = (es.map Prod.fst).filter (fun k => !(isExt k)) := by
        rw [decEntries_ok_keys hobj]

theorem callbackUnmarshalSplit {es : Entries} {c : Callback}
    (h : Callback.unmarshalYAML (.smap es) = .ok c) :
    c.callbackItems.map Prod.fst = (es.map Prod.fst).filter (fun k => !(isExt k)) ∧
    c.extensions.map Prod.fst = (es.map Prod.fst).filter (fun k => isExt k) := by
  simp only [Callback.unmarshalYAML, Callback.unmarshalF, GoVal.toEntries,
    ok_bind, decodeSMap] at h
  obtain ⟨allItems, hall, h⟩ := exceptBindOk h
  obtain ⟨x, hx, h⟩ := exceptBindOk h
  rw [extsUnmarshal_smap] at hx
  cases hx
  cases h
  refine ⟨?_, extsOf_keys es⟩
  dsimp only [Callback.callbackItems]
  calc (allItems.filter (fun p => !(isExt p.1))).map Prod.fst
      = (allItems.map Prod.fst).filter (fun k => !(isExt k)) :=
        map_fst_filter (fun k => !(isExt k)) allItems
    _ = (es.map Prod.fst).filter (fun k => !(isExt k)) := by
        rw [decEntries_ok_keys hall]

theorem notMem_of_isExt {k : String} (hk : isExt k = true) {l : List String}
    (hl : ∀ s ∈ l, isExt s = false) : k ∉ l := by
  intro hm
  rw [hl k hm] at hk
  exact Bool.noConfusion hk

theorem cleanupInterfaceArray_eq_map :
    ∀ xs : List GoVal, cleanupInterfaceArray xs = xs.map cleanupMapValue := by
  intro xs
  induction xs with
  | nil => rfl
  | cons x xs ih => simp [cleanupInterfaceArray, ih]

theorem cleanupInterfaceMap_eq_map :
    ∀ es : List (GoVal × GoVal),
      cleanupInterfaceMap es = es.map (fun p => (goFmt p.1, cleanupMapValue p.2)) := by
  intro es
  induction es with
  | nil => rfl
  | cons p ps ih => simp [cleanupInterfaceMap, ih]

/-! ## Claims -/

/-- Claim C1: the round-trip law does not hold on the code as written.
For the in-memory operation opRt, whose extension bag holds the vendor
key x-a, decoding the generic encoding returns opRtStripped, the same
operation with an empty bag, because Operation.UnmarshalYAML decodes
the bag but never attaches it (src/operation.go lines 311 to 316).
Both format byte codecs route through this one generic pair, so the
JSON and the YAML round trips fail alike. -/
theorem operation_roundtrip_drops_extensions :
    Operation.unmarshalYAML (Operation.marshalYAML opRt) = .ok opRtStripped ∧
    opRtStripped ≠ opRt := by
  refine ⟨rfl, ?_⟩
  intro h
  simp [opRtStripped, opRt] at h

/-- Claim C2: extension isolation fails on the code as written for the
Operation decoder.  Decoding a map holding the vendor key x-foo yields
an operation whose extension bag is empty, so the key does not appear
in the bag as the claim requires of every entity decoder. -/
theorem extension_isolation_fails_for_operation :
    Operation.unmarshalYAML
      (.smap [("responses", .smap []), ("x-foo", .str "bar")]) = .ok opZero ∧
    opZero.extensions = [] := ⟨rfl, rfl⟩

/-- Claim C4: extension-bag attachment fails on the code as written for
the Operation decoder.  The Schema decoder attaches the bag decoded
from the same source map (src/schema.go lines 452 to 459): decoding a
map with only the vendor key x-k yields a schema whose bag holds that
entry.  The Operation decoder decodes the bag the same way but never
attaches it: decoding a map with the vendor key x-k2 yields an
operation whose bag is empty. -/
theorem extension_bag_attachment_fails_for_operation :
    Schema.unmarshalYAML (.smap [("x-k", .int 7)]) = .ok schemaXk ∧
    Schema.extensions schemaXk = [("x-k", .int 7)] ∧
    Operation.unmarshalYAML
      (.smap [("responses", .smap [("200", .smap [("description", .str "d")])]),
              ("x-k2", .int 7)]) = .ok opC4dec ∧
    opC4dec.extensions = [] := ⟨rfl, rfl, rfl, rfl⟩

/-- Claim C8: Clone is implemented as encode-to-generic-form followed
by decode, but it is not an identity on Operation values carrying a
non-empty extension bag: the decode half drops the bag, so the clone of
opCl is not equal to opCl.  For the other clone-bearing entities the
identity does hold, shown here for License and ServerVariable values
with extensions. -/
theorem clone_drops_operation_extensions :
    Operation.clone opCl = .ok opClStripped ∧ opClStripped ≠ opCl ∧
    License.clone licMIT = .ok licMIT ∧
    ServerVariable.clone svPort = .ok svPort := by
  refine ⟨rfl, ?_, rfl, rfl⟩
  intro h
  simp [opClStripped, opCl] at h

/-- Claim C5, counterexample: the claim quantifies over every input map
where a scalar field key bears a wrong-typed value and asserts the
decoder returns successfully, but a structural error in another field
still fails the whole decode: with title bearing a number, the decoder
fails anyway because contact bears a scalar that cannot feed the child
decoder. -/
theorem scalar_leniency_can_still_fail :
    Info.unmarshalYAML (.smap [("title", .int 3), ("contact", .int 7)]) =
      .error "cannot unmarshal value into map" := rfl

/-- Claim C7, counterexample: the double-decode does not partition
every flat map; an x- key whose value is not map-shaped fails the whole
Paths decode, because the path-item collection decoder runs every
value, the x- ones included, through the PathItem decoder before
filtering. -/
theorem paths_split_fails_on_scalar_extension :
    Paths.unmarshalYAML (.smap [("x-note", .str "hi")]) =
      .error "cannot unmarshal value into map" := rfl

/-- Claim C9: the value normalizer cleanupMapValue is total (a Lean
function), maps an ordered sequence to the new sequence of the
recursively normalized elements in order, maps an untyped-keyed map to
the string-keyed map with default-string-converted keys and recursively
normalized values, and returns any other value unchanged, the
already-string-keyed maps included. -/
theorem cleanup_normalizer_spec :
    (∀ xs : List GoVal,
      cleanupMapValue (.arr xs) = .arr (xs.map cleanupMapValue)) ∧
    (∀ es : List (GoVal × GoVal),
      cleanupMapValue (.imap es) =
        .smap (es.map (fun p => (goFmt p.1, cleanupMapValue p.2)))) ∧
    (∀ v : GoVal, (∀ xs, v ≠ .arr xs) → (∀ es, v ≠ .imap es) →
      cleanupMapValue v = v) := by
  refine ⟨?_, ?_, ?_⟩
  · intro xs
    rw [cleanupMapValue, cleanupInterfaceArray_eq_map]
  · intro es
    rw [cleanupMapValue, cleanupInterfaceMap_eq_map]
  · intro v h1 h2
    cases v with
    | arr xs => exact absurd rfl (h1 xs)
    | imap es => exact absurd rfl (h2 es)
    | str s => rfl
    | int n => rfl
    | bool b => rfl
    | null => rfl
    | smap es => rfl

/-- Claim C9, witness: the scalar branch applied to a string and to an
already-string-keyed map. -/
theorem cleanup_normalizer_spec_witness :
    cleanupMapValue (GoVal.str "s") = GoVal.str "s" ∧
    cleanupMapValue (GoVal.smap [("a", .int 1)]) = GoVal.smap [("a", .int 1)] :=
  ⟨cleanup_normalizer_spec.2.2 (.str "s") (fun _ h => GoVal.noConfusion h)
      (fun _ h => GoVal.noConfusion h),
    cleanup_normalizer_spec.2.2 (.smap [("a", .int 1)])
      (fun _ h => GoVal.noConfusion h) (fun _ h => GoVal.noConfusion h)⟩

/-- Claim C6: the ordered-string-array coercion.  Whenever the enum key
of a server variable, the tags key of an operation or the required key
of a schema bears a sequence, the decoded field is the list of the
default string renderings of its elements in order; and the unquoted
port enum 8443, 443 decodes to the strings 8443 and 443. -/
theorem ordered_string_array_coercion :
    (∀ (es : Entries) (xs : List GoVal) (r : ServerVariable),
      ServerVariable.unmarshalYAML (.smap es) = .ok r →
      lookupE es "enum" = some (.arr xs) → r.enum = xs.map goFmt) ∧
    (∀ (es : Entries) (xs : List GoVal) (o : Operation),
      Operation.unmarshalYAML (.smap es) = .ok o →
      lookupE es "tags" = some (.arr xs) → o.tags = xs.map goFmt) ∧
    (∀ (es : Entries) (xs : List GoVal) (s : Schema),
      Schema.unmarshalYAML (.smap es) = .ok s →
      lookupE es "required" = some (.arr xs) → s.required = xs.map goFmt) ∧
    ServerVariable.unmarshalYAML
      (.smap [("enum", .arr [.int 8443, .int 443]), ("default", .str "8443")]) =
      .ok svDec8443 := by
  refine ⟨?_, ?_, ?_, rfl⟩
  · intro es xs r h hl
    rw [(serverVariableUnmarshalFields h).1]
    simp [strCoerceField, hl]
  · intro es xs o h hl
    rw [(operationUnmarshalFields h).1]
    simp [strCoerceField, hl]
  · intro es xs s h hl
    rw [(schemaUnmarshalFields h).2.2.1]
    simp [strCoerceField, hl]

/-- Claim C6, witness: the coercion conclusion at the concrete port
enum input. -/
theorem ordered_string_array_coercion_witness :
    svDec8443.enum = ([GoVal.int 8443, GoVal.int 443]).map goFmt :=
  ordered_string_array_coercion.1
    [("enum", .arr [.int 8443, .int 443]), ("default", .str "8443")]
    [.int 8443, .int 443] svDec8443 rfl rfl

theorem keysE_mergeExt_req (obj : Entries) (req : List String)
    (ext : Extensions) (hko : keysE obj = req)
    (hreq : ∀ s ∈ req, isExt s = false)
    (hk : ∀ k ∈ ext.map Prod.fst, isExt k = true)
    (hn : (ext.map Prod.fst).Nodup) :
    keysE (mergeExt obj ext) = req ++ ext.map Prod.fst := by
  have hd : ∀ k ∈ ext.map Prod.fst, k ∉ keysE obj := by
    intro k hkm
    rw [hko]
    exact notMem_of_isExt (hk k hkm) hreq
  rw [mergeExt_keys ext obj hd hn, hko]

/-- Claim C3: the omission law.  For every embedded entity, encoding a
value whose optional fields all hold their zero value produces a
generic map whose key list is exactly the entity's always-emitted
required keys followed by the keys of the extension bag (for a
well-formed bag: distinct x- keys), and no optional zero-value key
appears.  Info always emits title and version, Response always emits
description, OAuthFlow always emits authorizationUrl, tokenUrl and
scopes, even when empty. -/
theorem omission_law :
    (∀ (t ver : String) (ext : Extensions),
      (∀ k ∈ ext.map Prod.fst, isExt k = true) → (ext.map Prod.fst).Nodup →
      keysE (Info.marshalObj (zInfo t ver ext)) =
        ["title", "version"] ++ ext.map Prod.fst) ∧
    (∀ (d : String) (ext : Extensions),
      (∀ k ∈ ext.map Prod.fst, isExt k = true) → (ext.map Prod.fst).Nodup →
      keysE (Response.marshalObj (zResponse d ext)) =
        ["description"] ++ ext.map Prod.fst) ∧
    (∀ (a b : String) (sc : List (String × String)) (ext : Extensions),
      (∀ k ∈ ext.map Prod.fst, isExt k = true) → (ext.map Prod.fst).Nodup →
      keysE (OAuthFlow.marshalObj (zOAuthFlow a b sc ext)) =
        ["authorizationUrl", "tokenUrl", "scopes"] ++ ext.map Prod.fst) ∧
    (∀ ext : Extensions,
      (∀ k ∈ ext.map Prod.fst, isExt k = true) → (ext.map Prod.fst).Nodup →
      keysE (Contact.marshalObj (zContact ext)) = ext.map Prod.fst) ∧
    (∀ (n : String) (ext : Extensions),
      (∀ k ∈ ext.map Prod.fst, isExt k = true) → (ext.map Prod.fst).Nodup →
      keysE (License.marshalObj (zLicense n ext)) =
        ["name"] ++ ext.map Prod.fst) ∧
    (∀ pn : String,
      keysE (Discriminator.marshalObj (zDiscriminator pn)) =
        ["propertyName"]) ∧
    (∀ ext : Extensions,
      (∀ k ∈ ext.map Prod.fst, isExt k = true) → (ext.map Prod.fst).Nodup →
      keysE (XML.marshalObj (zXML ext)) = ext.map Prod.fst) ∧
    (∀ (u : String) (ext : Extensions),
      (∀ k ∈ ext.map Prod.fst, isExt k = true) → (ext.map Prod.fst).Nodup →
      keysE (ExternalDocumentation.marshalObj (zExternalDocumentation u ext)) =
        ["url"] ++ ext.map Prod.fst) ∧
    (∀ ext : Extensions,
      (∀ k ∈ ext.map Prod.fst, isExt k = true) → (ext.map Prod.fst).Nodup →
      keysE (Example.marshalObj (zExample ext)) = ext.map Prod.fst) ∧
    (∀ (d : String) (ext : Extensions),
      (∀ k ∈ ext.map Prod.fst, isExt k = true) → (ext.map Prod.fst).Nodup →
      keysE (ServerVariable.marshalObj (zServerVariable d ext)) =
        ["default"] ++ ext.map Prod.fst) ∧
    (∀ (u : String) (ext : Extensions),
      (∀ k ∈ ext.map Prod.fst, isExt k = true) → (ext.map Prod.fst).Nodup →
      keysE (Server.marshalObj (zServer u ext)) =
        ["url"] ++ ext.map Prod.fst) ∧
    (∀ ext : Extensions,
      (∀ k ∈ ext.map Prod.fst, isExt k = true) → (ext.map Prod.fst).Nodup →
      keysE (Link.marshalObj (zLink ext)) = ext.map Prod.fst) ∧
    (∀ ext : Extensions,
      (∀ k ∈ ext.map Prod.fst, isExt k = true) → (ext.map Prod.fst).Nodup →
      keysE (OAuthFlows.marshalObj (zOAuthFlows ext)) = ext.map Prod.fst) ∧
    (∀ (n : String) (ext : Extensions),
      (∀ k ∈ ext.map Prod.fst, isExt k = true) → (ext.map Prod.fst).Nodup →
      keysE (Tag.marshalObj (zTag n ext)) = ["name"] ++ ext.map Prod.fst) ∧
    (∀ ext : Extensions,
      (∀ k ∈ ext.map Prod.fst, isExt k = true) → (ext.map Prod.fst).Nodup →
      keysE (Schema.marshalObj (zSchema ext)) = ext.map Prod.fst) ∧
    (∀ ext : Extensions,
      (∀ k ∈ ext.map Prod.fst, isExt k = true) → (ext.map Prod.fst).Nodup →
      keysE (Header.marshalObj (zHeader ext)) = ext.map Prod.fst) ∧
    (∀ ext : Extensions,
      (∀ k ∈ ext.map Prod.fst, isExt k = true) → (ext.map Prod.fst).Nodup →
      keysE (MediaType.marshalObj (zMediaType ext)) = ext.map Prod.fst) ∧
    (∀ ext : Extensions,
      (∀ k ∈ ext.map Prod.fst, isExt k = true) → (ext.map Prod.fst).Nodup →
      keysE (Encoding.marshalObj (zEncoding ext)) = ext.map Prod.fst) ∧
    (∀ (n i : String) (ext : Extensions),
      (∀ k ∈ ext.map Prod.fst, isExt k = true) → (ext.map Prod.fst).Nodup →
      keysE (Parameter.marshalObj (zParameter n i ext)) =
        ["name", "in"] ++ ext.map Prod.fst) ∧
    (∀ (cs : List (String × MediaType)) (ext : Extensions),
      (∀ k ∈ ext.map Prod.fst, isExt k = true) → (ext.map Prod.fst).Nodup →
      keysE (RequestBody.marshalObj (zRequestBody cs ext)) =
        ["content"] ++ ext.map Prod.fst) ∧
    (∀ (rs : List (String × Response)) (ext : Extensions),
      (∀ k ∈ ext.map Prod.fst, isExt k = true) → (ext.map Prod.fst).Nodup →
      keysE (Operation.marshalObj (zOperation rs ext)) =
        ["responses"] ++ ext.map Prod.fst) ∧
    (∀ ext : Extensions,
      (∀ k ∈ ext.map Prod.fst, isExt k = true) → (ext.map Prod.fst).Nodup →
      keysE (PathItem.marshalObj (zPathItem ext)) = ext.map Prod.fst) ∧
    (∀ ext : Extensions,
      (∀ k ∈ ext.map Prod.fst, isExt k = true) → (ext.map Prod.fst).Nodup →
      keysE (Callback.marshalObj (zCallback ext)) = ext.map Prod.fst) ∧
    (∀ ext : Extensions,
      (∀ k ∈ ext.map Prod.fst, isExt k = true) → (ext.map Prod.fst).Nodup →
      keysE (Paths.marshalObj (zPaths ext)) = ext.map Prod.fst) := by
  refine ⟨?_, ?_, ?_, ?_, ?_, ?_, ?_, ?_, ?_, ?_, ?_, ?_, ?_, ?_, ?_, ?_, ?_,
    ?_, ?_, ?_, ?_, ?_, ?_, ?_⟩
  · intro t ver ext hk hn
    have hobj : Info.marshalObj (zInfo t ver ext) =
        mergeExt [("title", GoVal.str t), ("version", GoVal.str ver)] ext := by
      simp [zInfo, Info.marshalObj, strOpt, childOpt]
    rw [hobj, keysE_mergeExt_req [("title", GoVal.str t), ("version", GoVal.str ver)] ["title", "version"] ext rfl (by decide) hk hn]
  · intro d ext hk hn
    have hobj : Response.marshalObj (zResponse d ext) =
        mergeExt [("description", GoVal.str d)] ext := by
      simp [zResponse, Response.marshalObj, strOpt, mapOpt]
    rw [hobj, keysE_mergeExt_req [("description", GoVal.str d)] ["description"] ext rfl (by decide) hk hn]
  · intro a b sc ext hk hn
    have hobj : OAuthFlow.marshalObj (zOAuthFlow a b sc ext) =
        mergeExt [("authorizationUrl", GoVal.str a), ("tokenUrl", GoVal.str b),
          ("scopes", GoVal.smap (sc.map (fun p => (p.1, GoVal.str p.2))))]
          ext := by
      simp [zOAuthFlow, OAuthFlow.marshalObj, strOpt]
    rw [hobj, keysE_mergeExt_req [("authorizationUrl", GoVal.str a), ("tokenUrl", GoVal.str b), ("scopes", GoVal.smap (sc.map (fun p => (p.1, GoVal.str p.2))))] ["authorizationUrl", "tokenUrl", "scopes"] ext rfl (by decide) hk hn]
  · intro ext hk hn
    have hobj : Contact.marshalObj (zContact ext) = mergeExt [] ext := by
      simp [zContact, Contact.marshalObj, strOpt]
    rw [hobj, keysE_mergeExt_req [] [] ext rfl (by decide) hk hn]
    rfl
  · intro n ext hk hn
    have hobj : License.marshalObj (zLicense n ext) =
        mergeExt [("name", GoVal.str n)] ext := by
      simp [zLicense, License.marshalObj, strOpt]
    rw [hobj, keysE_mergeExt_req [("name", GoVal.str n)] ["name"] ext rfl (by decide) hk hn]
  · intro pn
    simp [zDiscriminator, Discriminator.marshalObj, strMapOpt, keysE]
  · intro ext hk hn
    have hobj : XML.marshalObj (zXML ext) = mergeExt [] ext := by
      simp [zXML, XML.marshalObj, strOpt, boolOpt]
    rw [hobj, keysE_mergeExt_req [] [] ext rfl (by decide) hk hn]
    rfl
  · intro u ext hk hn
    have hobj : ExternalDocumentation.marshalObj
        (zExternalDocumentation u ext) =
        mergeExt [("url", GoVal.str u)] ext := by
      simp [zExternalDocumentation, ExternalDocumentation.marshalObj, strOpt]
    rw [hobj, keysE_mergeExt_req [("url", GoVal.str u)] ["url"] ext rfl (by decide) hk hn]
  · intro ext hk hn
    have hobj : Example.marshalObj (zExample ext) = mergeExt [] ext := by
      simp [zExample, Example.marshalObj, strOpt, rawOpt]
    rw [hobj, keysE_mergeExt_req [] [] ext rfl (by decide) hk hn]
    rfl
  · intro d ext hk hn
    have hobj : ServerVariable.marshalObj (zServerVariable d ext) =
        mergeExt [("default", GoVal.str d)] ext := by
      simp [zServerVariable, ServerVariable.marshalObj, strOpt, strListOpt]
    rw [hobj, keysE_mergeExt_req [("default", GoVal.str d)] ["default"] ext rfl (by decide) hk hn]
  · intro u ext hk hn
    have hobj : Server.marshalObj (zServer u ext) =
        mergeExt [("url", GoVal.str u)] ext := by
      simp [zServer, Server.marshalObj, strOpt, mapOpt]
    rw [hobj, keysE_mergeExt_req [("url", GoVal.str u)] ["url"] ext rfl (by decide) hk hn]
  · intro ext hk hn
    have hobj : Link.marshalObj (zLink ext) = mergeExt [] ext := by
      simp [zLink, Link.marshalObj, strOpt, strMapOpt, childOpt]
    rw [hobj, keysE_mergeExt_req [] [] ext rfl (by decide) hk hn]
    rfl
  · intro ext hk hn
    have hobj : OAuthFlows.marshalObj (zOAuthFlows ext) = mergeExt [] ext := by
      simp [zOAuthFlows, OAuthFlows.marshalObj, childOpt]
    rw [hobj, keysE_mergeExt_req [] [] ext rfl (by decide) hk hn]
    rfl
  · intro n ext hk hn
    have hobj : Tag.marshalObj (zTag n ext) =
        mergeExt [("name", GoVal.str n)] ext := by
      simp [zTag, Tag.marshalObj, strOpt, childOpt]
    rw [hobj, keysE_mergeExt_req [("name", GoVal.str n)] ["name"] ext rfl (by decide) hk hn]
  · intro ext hk hn
    have hobj : Schema.marshalObj (zSchema ext) = mergeExt [] ext := by
      simp [zSchema, Schema.marshalObj, strOpt, boolOpt, rawOpt, strListOpt,
        addAll]
    rw [hobj, keysE_mergeExt_req [] [] ext rfl (by decide) hk hn]
    rfl
  · intro ext hk hn
    have hobj : Header.marshalObj (zHeader ext) = mergeExt [] ext := by
      simp [zHeader, Header.marshalObj, strOpt, boolOpt, rawOpt, smapOf]
    rw [hobj, keysE_mergeExt_req [] [] ext rfl (by decide) hk hn]
    rfl
  · intro ext hk hn
    have hobj : MediaType.marshalObj (zMediaType ext) = mergeExt [] ext := by
      simp [zMediaType, MediaType.marshalObj, rawOpt, smapOf]
    rw [hobj, keysE_mergeExt_req [] [] ext rfl (by decide) hk hn]
    rfl
  · intro ext hk hn
    have hobj : Encoding.marshalObj (zEncoding ext) = mergeExt [] ext := by
      simp [zEncoding, Encoding.marshalObj, strOpt, boolOpt]
    rw [hobj, keysE_mergeExt_req [] [] ext rfl (by decide) hk hn]
    rfl
  · intro n i ext hk hn
    have hobj : Parameter.marshalObj (zParameter n i ext) =
        mergeExt [("name", GoVal.str n), ("in", GoVal.str i)] ext := by
      simp [zParameter, zHeader, Parameter.marshalObj, strOpt, boolOpt,
        rawOpt, smapOf]
    rw [hobj, keysE_mergeExt_req [("name", GoVal.str n), ("in", GoVal.str i)] ["name", "in"] ext rfl (by decide) hk hn]
  · intro cs ext hk hn
    have hobj : RequestBody.marshalObj (zRequestBody cs ext) =
        mergeExt [("content", smapOf MediaType.marshalYAML cs)] ext := by
      simp [zRequestBody, RequestBody.marshalObj, strOpt, boolOpt]
    rw [hobj, keysE_mergeExt_req [("content", smapOf MediaType.marshalYAML cs)] ["content"] ext rfl (by decide) hk hn]
  · intro rs ext hk hn
    have hobj : Operation.marshalObj (zOperation rs ext) =
        mergeExt [("responses", smapOf Response.marshalYAML rs)] ext := by
      simp [zOperation, Operation.marshalObj, strOpt, boolOpt, strListOpt,
        listOpt]
    rw [hobj, keysE_mergeExt_req [("responses", smapOf Response.marshalYAML rs)] ["responses"] ext rfl (by decide) hk hn]
  · intro ext hk hn
    have hobj : PathItem.marshalObj (zPathItem ext) = mergeExt [] ext := by
      simp [zPathItem, PathItem.marshalObj, strOpt, listOpt]
    rw [hobj, keysE_mergeExt_req [] [] ext rfl (by decide) hk hn]
    rfl
  · intro ext hk hn
    have hobj : Callback.marshalObj (zCallback ext) = mergeExt [] ext := by
      simp [zCallback, Callback.marshalObj, strOpt, addAll, marshalCbPIEntries]
    rw [hobj, keysE_mergeExt_req [] [] ext rfl (by decide) hk hn]
    rfl
  · intro ext hk hn
    have hobj : Paths.marshalObj (zPaths ext) = mergeExt [] ext := by
      simp [zPaths, Paths.marshalObj]
    rw [hobj, keysE_mergeExt_req [] [] ext rfl (by decide) hk hn]
    rfl

/-- Claim C3, witness: the Info key set at a concrete title, version
and extension bag. -/
theorem omission_law_witness :
    keysE (Info.marshalObj (zInfo "T" "1" [("x-w", GoVal.null)])) =
    ["title", "version"] ++ ([("x-w", GoVal.null)] : Extensions).map Prod.fst :=
  omission_law.1 "T" "1" [("x-w", GoVal.null)] (by decide) (by decide)

/-- Claim C5, amended: the wrong-shaped scalar value itself never
causes a failure and behaves like an absent key: whenever the decode
succeeds, the scalar field whose key bears a wrong-typed value is at
its zero value, and a map holding only the wrong-typed scalar key
decodes successfully to the zero entity; the decode as a whole can
still fail for structural reasons in other fields, as the
counterexample shows.  Shown for the title of Info and the type and
nullable of Schema (the two sites the claim cites plus a bool field),
and for the description of Response and the default of a server
variable. -/
theorem scalar_leniency_amended :
    (∀ (es : Entries) (e : Info) (v : GoVal),
      Info.unmarshalYAML (.smap es) = .ok e →
      lookupE es "title" = some v → v.asStr = none → e.title = "") ∧
    (∀ v : GoVal, v.asStr = none →
      Info.unmarshalYAML (.smap [("title", v)]) = .ok infoZero) ∧
    (∀ (es : Entries) (s : Schema) (v : GoVal),
      Schema.unmarshalYAML (.smap es) = .ok s →
      lookupE es "type" = some v → v.asStr = none → s.type = "") ∧
    (∀ v : GoVal, v.asStr = none →
      Schema.unmarshalYAML (.smap [("type", v)]) = .ok schemaZero) ∧
    (∀ (es : Entries) (s : Schema) (v : GoVal),
      Schema.unmarshalYAML (.smap es) = .ok s →
      lookupE es "nullable" = some v → v.asBool = none → s.nullable = false) ∧
    (∀ (es : Entries) (r : Response) (v : GoVal),
      Response.unmarshalYAML (.smap es) = .ok r →
      lookupE es "description" = some v → v.asStr = none →
      r.description = "") ∧
    (∀ (es : Entries) (r : ServerVariable) (v : GoVal),
      ServerVariable.unmarshalYAML (.smap es) = .ok r →
      lookupE es "default" = some v → v.asStr = none → r.default = "") := by
  refine ⟨?_, ?_, ?_, ?_, ?_, ?_, ?_⟩
  · intro es e v h hl hv
    rw [(infoUnmarshalFields h).1]
    simp [strField, hl, hv]
  · intro v hv
    have hti : isExt "title" = false := by decide
    simp [Info.unmarshalYAML, GoVal.toEntries, ok_bind, optField, lookupE,
      Extensions.unmarshalYAML, extsOf, strField, hti, hv, infoZero]
  · intro es s v h hl hv
    rw [(schemaUnmarshalFields h).1]
    simp [strField, hl, hv]
  · intro v hv
    have hty : isExt "type" = false := by decide
    simp [Schema.unmarshalYAML, Schema.unmarshalF, GoVal.toEntries, ok_bind,
      optField, mapField, listField, lookupE, Extensions.unmarshalYAML,
      extsOf, strField, boolField, rawField, cleanField, strCoerceField,
      hty, hv, schemaZero]
    rfl
  · intro es s v h hl hv
    rw [(schemaUnmarshalFields h).2.1]
    simp [boolField, hl, hv]
  · intro es r v h hl hv
    rw [(responseUnmarshalFields h).2.1]
    simp [strField, hl, hv]
  · intro es r v h hl hv
    rw [(serverVariableUnmarshalFields h).2.1]
    simp [strField, hl, hv]

/-- Claim C5, amended witness: the conclusions at the concrete wrong
typed inputs. -/
theorem scalar_leniency_amended_witness :
    infoZero.title = "" ∧
    Info.unmarshalYAML (.smap [("title", GoVal.int 3)]) = .ok infoZero :=
  ⟨scalar_leniency_amended.1 [("title", GoVal.int 3)] infoZero (.int 3)
      rfl rfl rfl,
    scalar_leniency_amended.2.1 (.int 3) rfl⟩

/-- Claim C7, amended: whenever the double-decode of a flat map into
Paths, or into Callback, succeeds, it partitions the map keys: the
keys whose lowercase form does not start with x- are exactly the keys
of the decoded path-item collection, the keys whose lowercase form
starts with x- are exactly the keys of the extension bag, and no key
lands in both; success requires every value of the map, the x- valued
ones included, to decode as a PathItem, as the counterexample shows. -/
theorem paths_callback_split_amended :
    (∀ (es : Entries) (p : Paths), Paths.unmarshalYAML (.smap es) = .ok p →
      p.pathItems.map Prod.fst =
        (es.map Prod.fst).filter (fun k => !(isExt k)) ∧
      p.extensions.map Prod.fst =
        (es.map Prod.fst).filter (fun k => isExt k) ∧
      ∀ k, k ∈ p.pathItems.map Prod.fst → k ∉ p.extensions.map Prod.fst) ∧
    (∀ (es : Entries) (c : Callback),
      Callback.unmarshalYAML (.smap es) = .ok c →
      c.callbackItems.map Prod.fst =
        (es.map Prod.fst).filter (fun k => !(isExt k)) ∧
      c.extensions.map Prod.fst =
        (es.map Prod.fst).filter (fun k => isExt k) ∧
      ∀ k, k ∈ c.callbackItems.map Prod.fst →
        k ∉ c.extensions.map Prod.fst) := by
  constructor
  · intro es p h
    obtain ⟨h1, h2⟩ := pathsUnmarshalSplit h
    refine ⟨h1, h2, ?_⟩
    intro k hk1 hk2
    rw [h1] at hk1
    rw [h2] at hk2
    have e1 := (List.mem_filter.mp hk1).2
    have e2 := (List.mem_filter.mp hk2).2
    rw [e2] at e1
    exact Bool.noConfusion e1
  · intro es c h
    obtain ⟨h1, h2⟩ := callbackUnmarshalSplit h
    refine ⟨h1, h2, ?_⟩
    intro k hk1 hk2
    rw [h1] at hk1
    rw [h2] at hk2
    have e1 := (List.mem_filter.mp hk1).2
    have e2 := (List.mem_filter.mp hk2).2
    rw [e2] at e1
    exact Bool.noConfusion e1

/-- Claim C7, amended witness: the partition at a concrete map with one
path and one map-valued extension. -/
theorem paths_callback_split_amended_witness :
    pathsPetsXu.pathItems.map Prod.fst =
      (([("/pets", GoVal.smap []), ("x-u", GoVal.smap [])] : Entries).map
        Prod.fst).filter (fun k => !(isExt k)) ∧
    pathsPetsXu.extensions.map Prod.fst =
      (([("/pets", GoVal.smap []), ("x-u", GoVal.smap [])] : Entries).map
        Prod.fst).filter (fun k => isExt k) := by
  have h := paths_callback_split_amended.1
    [("/pets", GoVal.smap []), ("x-u", GoVal.smap [])] pathsPetsXu rfl
  exact ⟨h.1, h.2.1⟩

/-- Claim C10: the x- filter on extension keys is enforced only on
decode.  The generic-form encoder of an entity copies every extension
bag entry verbatim into the output map, whatever its key (shown in
full generality for Info, whose bag merge is the final step, and
concretely for the cited Schema merge site); only the standalone
Extensions encoder filters out the non x- keys; consequently an
in-memory Info with the bag key foo emits foo, and decoding that
output discards foo from the bag. -/
theorem extension_filter_only_on_decode :
    (∀ (r : Info) (k : String) (v : GoVal),
      (r.extensions.map Prod.fst).Nodup → (k, v) ∈ r.extensions →
      lookupE (Info.marshalObj r) k = some v) ∧
    Schema.marshalObj schemaFoo = [("foo", .str "b")] ∧
    (∀ ext : Extensions,
      Extensions.marshalObj ext = ext.filter (fun p => isExt p.1)) ∧
    lookupE (Info.marshalObj infoFoo) "foo" = some (.str "b") ∧
    Info.unmarshalYAML (Info.marshalYAML infoFoo) = .ok infoZero := by
  refine ⟨?_, rfl, fun ext => rfl, rfl, rfl⟩
  intro r k v hn hmem
  exact mergeExt_lookup_self r.extensions _ k v hn hmem

/-- Claim C10, witness: the Info encoder emits the non x- bag key foo
verbatim. -/
theorem extension_filter_only_on_decode_witness :
    lookupE (Info.marshalObj infoFoo) "foo" = some (GoVal.str "b") :=
  extension_filter_only_on_decode.1 infoFoo "foo" (.str "b")
    (by simp [infoFoo]) (by simp [infoFoo])

end Oas
